import Mathlib

/-!
# Verification of the seline interactive line selector

A shallow embedding of the selection state machine of `seline` (a terminal
tool for interactively picking lines from stdin), together with proofs about
its navigation, multi-selection, and output-formatting behaviour.

The embedding follows the source module function by function:

* configuration resolution (`setProgramOptions`), key-to-action mapping
  (`getAction`), viewport height (`getHeight`);
* session state (`SessionState`): `choices`, `selected` (the highlighted
  index, `-1` before initialization), `lastSelected`, `selectionIndex`,
  `rowOffset`, and `multiSelectedOptions`;
* the mutating operations `moveCursor`, `moveSelection`, `applySelection`,
  `handleSelect`, and the output formatter `getOutput`;
* the keypress dispatcher `handleInput` and the embedded entry point.

The JavaScript selection map is an object whose keys are integer-valued
strings; `Object.entries` enumerates such keys in ascending numeric order,
so the map is embedded as an association list kept sorted by key
(`mapSet` inserts in order, `mapGet` looks up with default `0`, the falsy
"not selected" value).  JavaScript numbers are embedded as `Int` (all values
arising here are small integers), fallible array reads as `Option`.
-/

/-- The resolved program options record (`progOpts` in the source). -/
structure ProgOpts where
  multiline : Bool
  outputIndex : Bool
  hideNumbers : Bool
  preserveOrder : Bool
  compact : Bool
  skipBlanks : Bool
  noColor : Bool
  lockLines : Bool
  skipChar : Option Char
deriving DecidableEq, Repr

/-- The CLI flags (`CLI_OPT_*` / `CLI_ARG_SKIP_CHAR` constants). -/
structure CliFlags where
  multiline : Bool := false
  outputIndex : Bool := false
  hideNumbers : Bool := false
  preserveOrder : Bool := false
  compact : Bool := false
  skipBlanks : Bool := false
  noColor : Bool := false
  lockLines : Bool := false
  skipChar : Option Char := none
deriving DecidableEq, Repr

/-- An options record passed to the embedded entry point.  A field is `none`
when the corresponding key is absent (`'key' in opts` is false). -/
structure OptsRecord where
  multiline : Option Bool := none
  outputIndex : Option Bool := none
  hideNumbers : Option Bool := none
  preserveOrder : Option Bool := none
  compact : Option Bool := none
  skipBlanks : Option Bool := none
  noColor : Option Bool := none
  lockLines : Option Bool := none
  skipChar : Option (Option Char) := none
deriving DecidableEq, Repr

/-- `setProgramOptions(opts)`: each option takes the explicitly passed value
when the key is present, and otherwise falls back to the CLI flag; the
`lockLines` fallback is `CLI_OPT_LOCK_LINES || CLI_OPT_OUTPUT_INDEX`. -/
def setProgramOptions (cli : CliFlags) (opts? : Option OptsRecord) : ProgOpts :=
  let opts := opts?.getD {}
  { multiline := opts.multiline.getD cli.multiline
    outputIndex := opts.outputIndex.getD cli.outputIndex
    hideNumbers := opts.hideNumbers.getD cli.hideNumbers
    preserveOrder := opts.preserveOrder.getD cli.preserveOrder
    compact := opts.compact.getD cli.compact
    skipBlanks := opts.skipBlanks.getD cli.skipBlanks
    noColor := opts.noColor.getD cli.noColor
    lockLines := opts.lockLines.getD (cli.lockLines || cli.outputIndex)
    skipChar := opts.skipChar.getD cli.skipChar }

/-- The logical actions of the `ACTIONS` key table. -/
inductive SelAction where
  | cursorUp
  | cursorDown
  | select
  | quit
  | cont
  | moveUp
  | moveDown
deriving DecidableEq, Repr

/-- The `ACTIONS` lookup table (string to action). -/
def ACTIONS : String → Option SelAction
  | "up" => some .cursorUp
  | "down" => some .cursorDown
  | "left" => some .cursorUp
  | "right" => some .cursorDown
  | "return" => some .select
  | "s" => some .select
  | "\x03" => some .quit
  | "q" => some .quit
  | "c" => some .cont
  | "u" => some .moveUp
  | "d" => some .moveDown
  | _ => none

/-- One keypress event: the character string (possibly absent for special
keys), the key name, and the shift modifier. -/
structure KeyInput where
  str : Option String := none
  keyName : String := ""
  shift : Bool := false
deriving DecidableEq, Repr

/-- `getAction(str, key)`: looks up `ACTIONS[str] || ACTIONS[key.name]`;
the `moveUp`/`moveDown` cases return nothing when `lockLines` is set
(falling through to the default return otherwise). -/
def getAction (opts : ProgOpts) (k : KeyInput) : Option SelAction :=
  let action :=
    match k.str.bind ACTIONS with
    | some a => some a
    | none => ACTIONS k.keyName
  match action with
  | some .moveUp => if opts.lockLines then none else action
  | some .moveDown => if opts.lockLines then none else action
  | _ => action

/-- Terminal dimensions (`getRows()` / `getCols()` results). -/
structure TtyEnv where
  rows : Int := 10
  cols : Int := 50
deriving DecidableEq, Repr

/-- Tab stop width used by the compact layout. -/
def TAB_WIDTH : Int := 8

/-- `getHeight()`: `getRows() - 2` rows are usable; in compact mode the
row count is derived from the tab-stop-rounded total width of all options
(the source's `reduce` has no initial value and throws on an empty list;
the embedding returns the empty sum `0` there — no claim evaluates
`getHeight` on an empty compact list). -/
def getHeight (opts : ProgOpts) (env : TtyEnv) (choices : List String) : Int :=
  let rows := env.rows - 2
  if opts.compact then
    let chars : Int :=
      (choices.map (fun option =>
        (option.length : Int) + TAB_WIDTH - (option.length : Int) % TAB_WIDTH)).foldl
        (· + ·) 0
    let optionRows := (chars + env.cols - 1) / env.cols - 1
    min optionRows rows
  else
    min (choices.length : Int) rows

/-- `shouldSkipLine(line)`: blank-line skipping, then a strict-equality
comparison of `progOpts.skipChar` with `line[0]` (in JavaScript
`null === undefined` is false, so an unset `skipChar` never matches,
and a set `skipChar` never matches the absent first character of `""`). -/
def shouldSkipLine (opts : ProgOpts) (line : String) : Bool :=
  if opts.skipBlanks ∧ line = "" then true
  else
    match opts.skipChar, line.toList.head? with
    | some c, some d => c = d
    | _, _ => false

/-- Lookup in the selection map object: a missing key reads as the falsy
`undefined`, which the source only ever uses as the number `0`. -/
def mapGet (m : List (Int × Nat)) (k : Int) : Nat :=
  match m with
  | [] => 0
  | (k', v) :: rest => if k = k' then v else mapGet rest k

/-- Assignment `m[k] = v` on the selection map object, keeping the
association list sorted by key to mirror `Object.entries` enumeration
order for integer-valued keys. -/
def mapSet (m : List (Int × Nat)) (k : Int) (v : Nat) : List (Int × Nat) :=
  match m with
  | [] => [(k, v)]
  | (k', v') :: rest =>
    if k = k' then (k, v) :: rest
    else if k < k' then (k, v) :: (k', v') :: rest
    else (k', v') :: mapSet rest k v

/-- The module-level mutable session state. -/
structure SessionState where
  choices : List String
  selected : Int
  lastSelected : Int
  selectionIndex : Nat
  rowOffset : Int
  multiSelectedOptions : List (Int × Nat)
deriving DecidableEq, Repr

/-- The state at module load: `selected = -1`, `lastSelected = 0`,
`selectionIndex = 1`, `rowOffset = 0`, empty selection map. -/
def initState (choices : List String) : SessionState :=
  { choices := choices
    selected := -1
    lastSelected := 0
    selectionIndex := 1
    rowOffset := 0
    multiSelectedOptions := [] }

/-- `moveCursor(dir, doRecursiveMove)`: step the highlighted index by `dir`;
out-of-range targets are ignored, skippable targets either extend the step
away from zero (when `doRecursiveMove`) or abort, and a successful move
updates the scroll offset to keep the highlight on screen. -/
def moveCursor (opts : ProgOpts) (env : TtyEnv) (st : SessionState)
    (dir : Int) (doRecursiveMove : Bool) : SessionState :=
  if st.selected + dir < 0 ∨ st.selected + dir ≥ (st.choices.length : Int) then st
  else if shouldSkipLine opts (st.choices.getD (st.selected + dir).toNat "") then
    if doRecursiveMove then
      moveCursor opts env st (dir + (if dir < 0 then -1 else 1)) doRecursiveMove
    else st
  else if st.selected + dir = st.selected then st
  else
    { st with
      selected := st.selected + dir
      rowOffset :=
        if dir < 0 ∧ st.selected + dir < st.rowOffset then st.selected + dir
        else if dir > 0 ∧ st.selected + dir ≥ st.rowOffset + (env.rows - 2) then
          st.selected + dir - (env.rows - 2) + 1
        else st.rowOffset }
termination_by
  (if dir < 0 then st.selected + dir + 1 else (st.choices.length : Int) - (st.selected + dir)).toNat
decreasing_by
  simp only [not_or, not_lt, ge_iff_le, not_le] at *
  split_ifs at * <;> omega

/-- `moveSelection(dir)`: clamp the target index, swap the two choice lines,
then follow the swapped line with a plain (non-extending) cursor move.
The source reads and writes `choices[selected]` directly; the embedding is
faithful for an initialized cursor (`selected ≥ 0` — for `selected = -1`
the source writes a stray `"-1"` array property, a corner nothing here reaches). -/
def moveSelection (opts : ProgOpts) (env : TtyEnv) (st : SessionState)
    (dir : Int) : SessionState :=
  let _selected := min ((st.choices.length : Int) - 1) (max 0 (st.selected + dir))
  if st.selected = _selected then st
  else
    let currentValue := st.choices.getD st.selected.toNat ""
    let choices' :=
      (st.choices.set st.selected.toNat (st.choices.getD _selected.toNat "")).set
        _selected.toNat currentValue
    moveCursor opts env { st with choices := choices' } dir false

/-- `applySelection(index, isSelected)`: a currently selected line is zeroed
out; an unselected line receives the next selection-order counter value and
the counter is incremented. -/
def applySelection (st : SessionState) (index : Int) (isSelected : Bool) :
    SessionState :=
  if isSelected then
    { st with multiSelectedOptions := mapSet st.multiSelectedOptions index 0 }
  else
    { st with
      multiSelectedOptions := mapSet st.multiSelectedOptions index st.selectionIndex
      selectionIndex := st.selectionIndex + 1 }

/-- The indices visited by the shift-range loop
`for (let i = lastSelected; i !== selected; i += iterDirection) ...`
followed by the final `applySelection(selected, ...)`: both endpoints
inclusive, walking in the direction of the sign of `b - a`. -/
def rangeWalk (a b : Int) : List Int :=
  if a = b then [b]
  else a :: rangeWalk (a + (if b > a then 1 else -1)) b
termination_by (b - a).natAbs
decreasing_by
  split_ifs <;> omega

/-- The `forEach(([key], index) => { multiSelectedOptions[key] = index + 1 })`
reassignment: walk the sorted entry list, assigning `n`, `n + 1`, ... -/
def assignOrders (m : List (Int × Nat)) (sorted : List (Int × Nat)) (n : Nat) :
    List (Int × Nat) :=
  match sorted with
  | [] => m
  | kv :: rest => assignOrders (mapSet m kv.1 n) rest (n + 1)

/-- The `preserveOrder` renumbering block inside `handleSelect`: collect the
currently selected entries, sort them by order value ascending (the stable
`entries.sort((a, b) => a[1] - b[1])`), reassign order values `1..N` in that
order, and reset the counter to `N + 1`. -/
def renumber (st : SessionState) : SessionState :=
  let entries := st.multiSelectedOptions.filter (fun kv => kv.2 ≠ 0)
  let sorted := entries.insertionSort (fun a b => a.2 ≤ b.2)
  { st with
    multiSelectedOptions := assignOrders st.multiSelectedOptions sorted 1
    selectionIndex := sorted.length + 1 }

/-- The selection-map mutation performed by `handleSelect` in multi-select
mode, before the `preserveOrder` renumbering: a plain toggle of the
highlighted line, or — for a shift-select with a distinct anchor — a range
walk applying the anchor's negated pre-state to every line in between. -/
def toggleCore (st : SessionState) (shiftSelect : Bool) : SessionState :=
  let st' :=
    if ¬shiftSelect ∨ st.lastSelected = st.selected then
      let isSelected := mapGet st.multiSelectedOptions st.selected ≠ 0
      applySelection st st.selected isSelected
    else
      let isSelected := mapGet st.multiSelectedOptions st.lastSelected = 0
      (rangeWalk st.lastSelected st.selected).foldl
        (fun s i => applySelection s i isSelected) st
  { st' with lastSelected := st'.selected }

/-- A JavaScript value delivered at the output boundary.  Sparse arrays
keep their holes (`none` entries), matching `Array.prototype.join` and the
value an embedded caller receives. -/
inductive JsValue where
  | undefinedVal
  | num (n : Int)
  | str (s : String)
  | numArr (l : List (Option Int))
  | strArr (l : List String)
deriving DecidableEq, Repr

/-- Assignment `a[i] = v` on a JavaScript array: extends the array with
holes when `i` is beyond the current length. -/
def sparseSet {α : Type} (a : List (Option α)) (i : Nat) (v : Option α) :
    List (Option α) :=
  if i < a.length then a.set i v
  else a ++ List.replicate (i - a.length) none ++ [v]

/-- `choices[k]`: an out-of-range or negative index reads `undefined`. -/
def lookupChoice (choices : List String) (k : Int) : Option String :=
  if k < 0 then none else choices.get? k.toNat

/-- `entries.join('\n')` on a sparse array: holes and `undefined` entries
become empty segments. -/
def joinSparse (l : List (Option Int)) : String :=
  String.intercalate "\n" (l.map (fun o => match o with
    | none => ""
    | some n => toString n))

/-- `getOutput()`: the output formatter, switching on `outputIndex`,
`multiline`, `preserveOrder`, and on CLI versus embedded delivery
(`CALLED_VIA_CLI` joins list results with newlines). -/
def getOutput (opts : ProgOpts) (calledViaCli : Bool) (st : SessionState) :
    JsValue :=
  if opts.outputIndex then
    if opts.multiline then
      if opts.preserveOrder then
        let entries : List (Option Int) :=
          st.multiSelectedOptions.foldl
            (fun a kv => if kv.2 = 0 then a else sparseSet a kv.2 (some kv.1)) []
        if calledViaCli then .str (joinSparse entries) else .numArr entries
      else
        let entries : List Int :=
          (st.multiSelectedOptions.filter (fun kv => kv.2 ≠ 0)).map (fun kv => kv.1)
        if calledViaCli then
          .str (String.intercalate "\n" (entries.map toString))
        else .numArr (entries.map some)
    else .num st.selected
  else
    if opts.multiline then
      if opts.preserveOrder then
        let entries0 : List (Option String) :=
          st.multiSelectedOptions.foldl
            (fun a kv =>
              if kv.2 = 0 then a
              else sparseSet a kv.2 (lookupChoice st.choices kv.1)) []
        let entries := (entries0.map (fun o => o.getD "")).filter (fun s => s ≠ "")
        if calledViaCli then .str (String.intercalate "\n" entries)
        else .strArr entries
      else
        let entries :=
          (st.choices.enum.filter
            (fun p => mapGet st.multiSelectedOptions (p.1 : Int) ≠ 0)).map
            (fun p => p.2)
        if calledViaCli then .str (String.intercalate "\n" entries)
        else .strArr entries
    else
      match lookupChoice st.choices st.selected with
      | some s => .str s
      | none => .undefinedVal

/-- `handleSelect(shiftSelect)`: single-select mode resolves the output and
ends the session; multi-select mode applies the toggle, records the anchor,
and renumbers when `preserveOrder` is on. -/
def handleSelect (opts : ProgOpts) (_env : TtyEnv) (calledViaCli : Bool)
    (st : SessionState) (shiftSelect : Bool) : SessionState × Option JsValue :=
  if ¬opts.multiline then (st, some (getOutput opts calledViaCli st))
  else
    let st2 := toggleCore st shiftSelect
    let st3 := if opts.multiline ∧ opts.preserveOrder then renumber st2 else st2
    (st3, none)

/-- JavaScript truthiness of an output value: `undefined`, the number `0`,
and the empty string are falsy; arrays are always truthy. -/
def jsTruthy : JsValue → Bool
  | .undefinedVal => false
  | .num n => n ≠ 0
  | .str s => s ≠ ""
  | .numArr _ => true
  | .strArr _ => true

/-- Template-literal stringification `${output}` of an output value. -/
def jsTemplate : JsValue → String
  | .undefinedVal => "undefined"
  | .num n => toString n
  | .str s => s
  | .numArr l => String.intercalate "," (l.map (fun o => match o with
    | none => ""
    | some n => toString n))
  | .strArr l => String.intercalate "," l

/-- The standalone-mode write in `end(output)`:
`if (output) process.stdout.write(`${output}\n`)` — the payload written to
standard output, or `none` when the truthiness guard suppresses it. -/
def cliWrite (output : JsValue) : Option String :=
  if jsTruthy output then some (jsTemplate output ++ "\n") else none

/-- The numeric fall-through of `handleInput`:
`const val = parseInt(str, 10); if (val == str) ...` — delivers a value
exactly for the nonempty decimal-digit strings a keypress produces. -/
def jsNumericValue (s? : Option String) : Option Int :=
  match s? with
  | none => none
  | some s =>
    if s.toList ≠ [] ∧ s.toList.all Char.isDigit then
      some (s.toList.foldl (fun n c => n * 10 + ((c.toNat : Int) - 48)) 0)
    else none

/-- `handleInput(str, key)`: map the keypress to an action and dispatch.
Returns the successor state plus the session result when the press ended
the session (`quit` ends with the `undefined` output, `continue` and
single-select `select` end with `getOutput()`). -/
def handleInput (opts : ProgOpts) (env : TtyEnv) (calledViaCli : Bool)
    (st : SessionState) (k : KeyInput) : SessionState × Option JsValue :=
  match getAction opts k with
  | some .quit => (st, some .undefinedVal)
  | some .cursorUp => (moveCursor opts env st (-1) true, none)
  | some .cursorDown => (moveCursor opts env st 1 true, none)
  | some .moveUp => (moveSelection opts env st (-1), none)
  | some .moveDown => (moveSelection opts env st 1, none)
  | some .select => handleSelect opts env calledViaCli st k.shift
  | some .cont => (st, some (getOutput opts calledViaCli st))
  | none =>
    match jsNumericValue k.str with
    | some val => (moveCursor opts env st (val - st.selected) false, none)
    | none => (st, none)

/-- `main()`'s initial cursor placement: `moveCursor(1, true)` from the
module-load state selects the first non-skippable item, if any. -/
def startSession (opts : ProgOpts) (env : TtyEnv) (choices : List String) :
    SessionState :=
  moveCursor opts env (initState choices) 1 true

/-- Run a list of keypresses through `handleInput`, stopping at the first
one that ends the session and returning its result. -/
def runKeys (opts : ProgOpts) (env : TtyEnv) (calledViaCli : Bool)
    (st : SessionState) : List KeyInput → SessionState × Option JsValue
  | [] => (st, none)
  | k :: ks =>
    match handleInput opts env calledViaCli st k with
    | (st', none) => runKeys opts env calledViaCli st' ks
    | (st', some out) => (st', some out)

/-- A cursor-move operation: the `cursorUp`/`cursorDown` actions (single
steps with skip-extension) and the numeric jump fall-through. -/
inductive NavOp where
  | cursorUp
  | cursorDown
  | jump (digits : String)
deriving DecidableEq, Repr

/-- Dispatch of one cursor-move operation, as `handleInput` performs it. -/
def applyNavOp (opts : ProgOpts) (env : TtyEnv) (st : SessionState) :
    NavOp → SessionState
  | .cursorUp => moveCursor opts env st (-1) true
  | .cursorDown => moveCursor opts env st 1 true
  | .jump digits =>
    match jsNumericValue (some digits) with
    | some val => moveCursor opts env st (val - st.selected) false
    | none => st

/-- A sequence of cursor-move operations. -/
def applyNavOps (opts : ProgOpts) (env : TtyEnv) (st : SessionState)
    (ops : List NavOp) : SessionState :=
  ops.foldl (applyNavOp opts env) st

/-- The module-level picture an embedded caller sees: the session state,
whether the module `choices` binding is defined, and whether `progResolve`
is set (a session is active). -/
structure ModuleState where
  sess : SessionState
  choicesSet : Bool
  progResolveSet : Bool
  opts : ProgOpts
deriving DecidableEq, Repr

/-- The embedded entry point `module.exports = async function(...)`: throws
(rejecting the returned promise) when `progResolve` is already set, before
any state is touched; otherwise stores the choices, resolves options, sets
`progResolve`, and runs `main()` (whose state effect is the initial
`moveCursor(1, true)`). -/
def selineEntry (cli : CliFlags) (env : TtyEnv) (ms : ModuleState)
    (passedChoices : List String) (options : OptsRecord) :
    ModuleState × Option String :=
  if ms.progResolveSet then (ms, some "seline already in use!")
  else
    let opts := setProgramOptions cli (some options)
    let sess0 := { ms.sess with choices := passedChoices }
    let sess1 := moveCursor opts env sess0 1 true
    ({ sess := sess1, choicesSet := true, progResolveSet := true, opts := opts },
      none)

/-- Fields other than `selected` and `rowOffset` are untouched by the
cursor move. -/
theorem moveCursor_fields (opts : ProgOpts) (env : TtyEnv) (st : SessionState)
    (dir : Int) (rec : Bool) :
    (moveCursor opts env st dir rec).choices = st.choices ∧
    (moveCursor opts env st dir rec).lastSelected = st.lastSelected ∧
    (moveCursor opts env st dir rec).selectionIndex = st.selectionIndex ∧
    (moveCursor opts env st dir rec).multiSelectedOptions =
      st.multiSelectedOptions := by
  induction dir, rec using moveCursor.induct opts env st with
  | case1 dir rec hcond =>
    rw [moveCursor, if_pos hcond]
    exact ⟨rfl, rfl, rfl, rfl⟩
  | case2 dir hcond hskip ih =>
    rw [moveCursor, if_neg hcond, if_pos hskip, if_pos rfl]
    exact ih
  | case3 dir rec hcond hskip hrec =>
    rw [moveCursor, if_neg hcond, if_pos hskip, if_neg hrec]
    exact ⟨rfl, rfl, rfl, rfl⟩
  | case4 dir rec hcond hskip heq =>
    rw [moveCursor, if_neg hcond, if_neg hskip, if_pos heq]
    exact ⟨rfl, rfl, rfl, rfl⟩
  | case5 dir rec hcond hskip hne =>
    rw [moveCursor, if_neg hcond, if_neg hskip, if_neg hne]
    exact ⟨rfl, rfl, rfl, rfl⟩

/-- The navigation invariant: an initialized highlighted index is in range
and rests on a non-skippable line. -/
def NavInv (opts : ProgOpts) (st : SessionState) : Prop :=
  0 ≤ st.selected →
    st.selected < (st.choices.length : Int) ∧
    shouldSkipLine opts (st.choices.getD st.selected.toNat "") = false

theorem moveCursor_navInv (opts : ProgOpts) (env : TtyEnv) (st : SessionState)
    (dir : Int) (rec : Bool) (h : NavInv opts st) :
    NavInv opts (moveCursor opts env st dir rec) := by
  induction dir, rec using moveCursor.induct opts env st with
  | case1 dir rec hcond => rw [moveCursor, if_pos hcond]; exact h
  | case2 dir hcond hskip ih =>
    rw [moveCursor, if_neg hcond, if_pos hskip, if_pos rfl]; exact ih
  | case3 dir rec hcond hskip hrec =>
    rw [moveCursor, if_neg hcond, if_pos hskip, if_neg hrec]; exact h
  | case4 dir rec hcond hskip heq =>
    rw [moveCursor, if_neg hcond, if_neg hskip, if_pos heq]; exact h
  | case5 dir rec hcond hskip hne =>
    rw [moveCursor, if_neg hcond, if_neg hskip, if_neg hne]
    unfold NavInv
    dsimp only
    intro _
    refine ⟨by push_neg at hcond; omega, ?_⟩
    simpa using hskip

/-- The viewport invariant: the highlighted index is in range and inside
the window of `getRows() - 2` rows starting at the scroll offset. -/
def ViewInv (env : TtyEnv) (st : SessionState) : Prop :=
  0 ≤ st.rowOffset ∧ st.rowOffset ≤ st.selected ∧
  st.selected < (st.choices.length : Int) ∧
  st.selected < st.rowOffset + (env.rows - 2)

theorem moveCursor_viewInv (opts : ProgOpts) (env : TtyEnv) (st : SessionState)
    (dir : Int) (rec : Bool) (hr : 1 ≤ env.rows - 2) (h : ViewInv env st) :
    ViewInv env (moveCursor opts env st dir rec) := by
  induction dir, rec using moveCursor.induct opts env st with
  | case1 dir rec hcond => rw [moveCursor, if_pos hcond]; exact h
  | case2 dir hcond hskip ih =>
    rw [moveCursor, if_neg hcond, if_pos hskip, if_pos rfl]; exact ih
  | case3 dir rec hcond hskip hrec =>
    rw [moveCursor, if_neg hcond, if_pos hskip, if_neg hrec]; exact h
  | case4 dir rec hcond hskip heq =>
    rw [moveCursor, if_neg hcond, if_neg hskip, if_pos heq]; exact h
  | case5 dir rec hcond hskip hne =>
    rw [moveCursor, if_neg hcond, if_neg hskip, if_neg hne]
    unfold ViewInv at h ⊢
    dsimp only
    push_neg at hcond
    split_ifs <;> omega

/-- From the uninitialized state, the initial `moveCursor(1, true)` lands on
a non-skippable line whenever one exists, establishing the viewport
invariant. -/
theorem moveCursor_init_lands (opts : ProgOpts) (env : TtyEnv)
    (st : SessionState) (dir : Int) (rec : Bool)
    (hsel : st.selected = -1) (hoff : st.rowOffset = 0)
    (hr : 1 ≤ env.rows - 2) (hrec : rec = true) (hdir : 1 ≤ dir)
    (hex : ∃ j : Int, st.selected + dir ≤ j ∧ j < (st.choices.length : Int) ∧
      shouldSkipLine opts (st.choices.getD j.toNat "") = false) :
    ViewInv env (moveCursor opts env st dir rec) := by
  induction dir, rec using moveCursor.induct opts env st with
  | case1 dir rec hcond =>
    exfalso
    obtain ⟨j, hj1, hj2, _⟩ := hex
    rcases hcond with hlt | hge
    · omega
    · omega
  | case2 dir hcond hskip ih =>
    rw [moveCursor, if_neg hcond, if_pos hskip, if_pos rfl]
    simp only [dite_eq_ite] at ih
    apply ih trivial (by omega)
    obtain ⟨j, hj1, hj2, hj3⟩ := hex
    refine ⟨j, ?_, hj2, hj3⟩
    have hjne : j ≠ st.selected + dir := by
      intro hcontra
      rw [hcontra] at hj3
      rw [hj3] at hskip
      exact Bool.false_ne_true hskip
    have : ¬dir < 0 := by omega
    simp only [this, if_false]
    omega
  | case3 dir rec hcond hskip hrecF =>
    exact absurd hrec hrecF
  | case4 dir rec hcond hskip heq =>
    exfalso
    push_neg at hcond
    omega
  | case5 dir rec hcond hskip hne =>
    rw [moveCursor, if_neg hcond, if_neg hskip, if_neg hne]
    unfold ViewInv
    dsimp only
    push_neg at hcond
    split_ifs <;> omega

/-- Every cursor-move operation is a `moveCursor` call (or the identity). -/
theorem applyNavOp_cases (opts : ProgOpts) (env : TtyEnv) (st : SessionState)
    (op : NavOp) :
    (∃ dir rec, applyNavOp opts env st op = moveCursor opts env st dir rec) ∨
    applyNavOp opts env st op = st := by
  cases op with
  | cursorUp => exact Or.inl ⟨-1, true, rfl⟩
  | cursorDown => exact Or.inl ⟨1, true, rfl⟩
  | jump digits =>
    cases h : jsNumericValue (some digits) with
    | none => right; simp [applyNavOp, h]
    | some val => left; exact ⟨val - st.selected, false, by simp [applyNavOp, h]⟩

theorem applyNavOps_viewInv (opts : ProgOpts) (env : TtyEnv) (st : SessionState)
    (ops : List NavOp) (hr : 1 ≤ env.rows - 2) (h : ViewInv env st) :
    ViewInv env (applyNavOps opts env st ops) := by
  induction ops generalizing st with
  | nil => exact h
  | cons op ops ih =>
    show ViewInv env (applyNavOps opts env (applyNavOp opts env st op) ops)
    apply ih
    rcases applyNavOp_cases opts env st op with ⟨dir, rec, heq⟩ | heq
    · rw [heq]; exact moveCursor_viewInv opts env st dir rec hr h
    · rw [heq]; exact h

theorem applyNavOps_navInv (opts : ProgOpts) (env : TtyEnv) (st : SessionState)
    (ops : List NavOp) (h : NavInv opts st) :
    NavInv opts (applyNavOps opts env st ops) := by
  induction ops generalizing st with
  | nil => exact h
  | cons op ops ih =>
    show NavInv opts (applyNavOps opts env (applyNavOp opts env st op) ops)
    apply ih
    rcases applyNavOp_cases opts env st op with ⟨dir, rec, heq⟩ | heq
    · rw [heq]; exact moveCursor_navInv opts env st dir rec h
    · rw [heq]; exact h

theorem applyNavOps_choices (opts : ProgOpts) (env : TtyEnv) (st : SessionState)
    (ops : List NavOp) :
    (applyNavOps opts env st ops).choices = st.choices := by
  induction ops generalizing st with
  | nil => rfl
  | cons op ops ih =>
    show (applyNavOps opts env (applyNavOp opts env st op) ops).choices = _
    rw [ih]
    rcases applyNavOp_cases opts env st op with ⟨dir, rec, heq⟩ | heq
    · rw [heq]; exact (moveCursor_fields opts env st dir rec).1
    · rw [heq]

/-- In non-compact layout `getHeight` is `min(choices.length, rows)`, and
the viewport invariant places the highlight inside that many rows. -/
theorem viewInv_getHeight (opts : ProgOpts) (env : TtyEnv) (st : SessionState)
    (hc : opts.compact = false) (h : ViewInv env st) :
    st.selected < st.rowOffset + getHeight opts env st.choices := by
  unfold getHeight
  rw [hc]
  simp only [Bool.false_eq_true, if_false]
  obtain ⟨h1, h2, h3, h4⟩ := h
  rcases le_total ((st.choices.length : Int)) (env.rows - 2) with hm | hm
  · rw [min_eq_left hm]; omega
  · rw [min_eq_right hm]; omega

/-- A convenient all-defaults options record (every flag off). -/
def optsBase : ProgOpts :=
  { multiline := false, outputIndex := false, hideNumbers := false,
    preserveOrder := false, compact := false, skipBlanks := false,
    noColor := false, lockLines := false, skipChar := none }

/-- C1 (amended): in non-compact layout, with at least one usable terminal
row and at least one non-skippable line, the highlighted index stays inside
`[0, len)` and inside `[scrollOffset, scrollOffset + visibleRows)` (with
`visibleRows = getHeight()`) after initialization and any sequence of
cursor-move operations. -/
theorem seline_c1_viewport (opts : ProgOpts) (env : TtyEnv)
    (choices : List String) (ops : List NavOp)
    (hc : opts.compact = false) (hr : 1 ≤ env.rows - 2)
    (hex : ∃ i : Nat, i < choices.length ∧
      shouldSkipLine opts (choices.getD i "") = false) :
    let st := applyNavOps opts env (startSession opts env choices) ops
    0 ≤ st.selected ∧ st.selected < (choices.length : Int) ∧
    st.rowOffset ≤ st.selected ∧
    st.selected < st.rowOffset + getHeight opts env choices := by
  intro st
  have hchoices : st.choices = choices := by
    show (applyNavOps opts env (startSession opts env choices) ops).choices = _
    rw [applyNavOps_choices]
    exact (moveCursor_fields opts env (initState choices) 1 true).1
  have hstart : ViewInv env (startSession opts env choices) := by
    apply moveCursor_init_lands opts env (initState choices) 1 true rfl rfl hr rfl
      (by norm_num)
    obtain ⟨i, hi, hskip⟩ := hex
    refine ⟨(i : Int), ?_, ?_, ?_⟩
    · simp only [initState]
      omega
    · simp only [initState]
      exact_mod_cast hi
    · simpa [initState, Int.toNat_natCast] using hskip
  have hv : ViewInv env st := applyNavOps_viewInv opts env _ ops hr hstart
  obtain ⟨h1, h2, h3, h4⟩ := hv
  rw [hchoices] at h3
  refine ⟨by omega, by omega, by omega, ?_⟩
  have := viewInv_getHeight opts env st hc (by rw [ViewInv]; rw [hchoices]; exact ⟨h1, h2, h3, h4⟩)
  rwa [hchoices] at this

/-- Witness for C1: a two-line list, default terminal, one cursor-down. -/
theorem seline_c1_witness :
    (let st := applyNavOps optsBase {} (startSession optsBase {} ["a", "b"])
      [NavOp.cursorDown]
     0 ≤ st.selected ∧ st.selected < ((["a", "b"] : List String).length : Int) ∧
     st.rowOffset ≤ st.selected ∧
     st.selected < st.rowOffset + getHeight optsBase {} ["a", "b"]) :=
  seline_c1_viewport optsBase {} ["a", "b"] [NavOp.cursorDown] rfl
    (by norm_num) ⟨0, by norm_num, by decide⟩

/-- Counterexample for C1 as stated: in compact layout a one-line list gives
`getHeight() = 0`, so the initialized highlight (index 0, offset 0) is not
inside `[scrollOffset, scrollOffset + visibleRows)`. -/
theorem seline_c1_counterexample :
    (startSession { optsBase with compact := true } {} ["a"]).selected = 0 ∧
    (startSession { optsBase with compact := true } {} ["a"]).rowOffset = 0 ∧
    getHeight { optsBase with compact := true } {} ["a"] = 0 ∧
    ¬((startSession { optsBase with compact := true } {} ["a"]).selected <
      (startSession { optsBase with compact := true } {} ["a"]).rowOffset +
        getHeight { optsBase with compact := true } {} ["a"]) := by
  have hs : startSession { optsBase with compact := true } {} ["a"] =
      { choices := ["a"], selected := 0, lastSelected := 0, selectionIndex := 1,
        rowOffset := 0, multiSelectedOptions := [] } := by
    rw [startSession, moveCursor]
    norm_num [initState, shouldSkipLine, optsBase]
  have hh : getHeight { optsBase with compact := true } {} ["a"] = 0 := by
    decide
  rw [hs, hh]
  norm_num

/-- C6: with `skipBlanks` on, navigation never rests the highlight on an
empty line — the cursor either is uninitialized (`-1`, reading `undefined`)
or sits on a line the skip predicate rejects, which is then non-empty. -/
theorem seline_c6_skip_blanks (opts : ProgOpts) (env : TtyEnv)
    (choices : List String) (ops : List NavOp) (hs : opts.skipBlanks = true) :
    let st := applyNavOps opts env (startSession opts env choices) ops
    lookupChoice st.choices st.selected ≠ some "" := by
  intro st
  have hn : NavInv opts st := by
    apply applyNavOps_navInv
    apply moveCursor_navInv
    intro hcontra
    simp [initState] at hcontra
  intro hbad
  rw [lookupChoice] at hbad
  by_cases hneg : st.selected < 0
  · rw [if_pos hneg] at hbad
    exact Option.noConfusion hbad
  · rw [if_neg hneg] at hbad
    push_neg at hneg
    obtain ⟨_, hskip⟩ := hn hneg
    rw [List.getD_eq_getElem?_getD, ← List.get?_eq_getElem?, hbad] at hskip
    rw [shouldSkipLine] at hskip
    simp [hs] at hskip

/-- Witness for C6: a list with a blank line, one cursor-down. -/
theorem seline_c6_witness :
    (let st := applyNavOps { optsBase with skipBlanks := true } {}
      (startSession { optsBase with skipBlanks := true } {} ["a", "", "b"])
      [NavOp.cursorDown]
     lookupChoice st.choices st.selected ≠ some "") :=
  seline_c6_skip_blanks { optsBase with skipBlanks := true } {} ["a", "", "b"]
    [NavOp.cursorDown] rfl

/-- When every line is skippable (in particular when the list is empty),
`moveCursor` never lands anywhere and the state is unchanged. -/
theorem moveCursor_allSkip (opts : ProgOpts) (env : TtyEnv) (st : SessionState)
    (dir : Int) (rec : Bool)
    (h : ∀ l ∈ st.choices, shouldSkipLine opts l = true) :
    moveCursor opts env st dir rec = st := by
  induction dir, rec using moveCursor.induct opts env st with
  | case1 dir rec hcond => rw [moveCursor, if_pos hcond]
  | case2 dir hcond hskip ih =>
    rw [moveCursor, if_neg hcond, if_pos hskip, if_pos rfl]
    exact ih
  | case3 dir rec hcond hskip hrec =>
    rw [moveCursor, if_neg hcond, if_pos hskip, if_neg hrec]
  | case4 dir rec hcond hskip heq =>
    rw [moveCursor, if_neg hcond, if_neg hskip, if_pos heq]
  | case5 dir rec hcond hskip hne =>
    exfalso
    push_neg at hcond
    apply hskip
    apply h
    have hlt : (st.selected + dir).toNat < st.choices.length := by omega
    rw [List.getD_eq_getElem?_getD, ← List.get?_eq_getElem?,
      List.get?_eq_get hlt]
    exact List.get_mem _ _ _

theorem applyNavOps_allSkip (opts : ProgOpts) (env : TtyEnv)
    (st : SessionState) (ops : List NavOp)
    (h : ∀ l ∈ st.choices, shouldSkipLine opts l = true) :
    applyNavOps opts env st ops = st := by
  induction ops with
  | nil => rfl
  | cons op ops ih =>
    show applyNavOps opts env (applyNavOp opts env st op) ops = st
    have hop : applyNavOp opts env st op = st := by
      rcases applyNavOp_cases opts env st op with ⟨dir, rec, heq⟩ | heq
      · rw [heq]; exact moveCursor_allSkip opts env st dir rec h
      · exact heq
    rw [hop, ih]

/-- C10: when the list is empty or every line is skippable, the highlight
keeps its sentinel `-1` through initialization and every cursor move; a
single-select continue then reads `choices[-1]` (`undefined`), so the
embedded promise resolves to `undefined` and CLI mode writes nothing. -/
theorem seline_c10_sentinel (opts : ProgOpts) (env : TtyEnv)
    (choices : List String) (cli : Bool) (ops : List NavOp)
    (hAll : ∀ l ∈ choices, shouldSkipLine opts l = true)
    (hm : opts.multiline = false) (hoi : opts.outputIndex = false) :
    let st := applyNavOps opts env (startSession opts env choices) ops
    st.selected = -1 ∧
    getOutput opts cli st = JsValue.undefinedVal ∧
    (handleInput opts env cli st { str := some "c", keyName := "c" }).2 =
      some JsValue.undefinedVal ∧
    cliWrite JsValue.undefinedVal = none := by
  intro st
  have hstart : startSession opts env choices = initState choices :=
    moveCursor_allSkip opts env (initState choices) 1 true hAll
  have hst : st = initState choices := by
    show applyNavOps opts env (startSession opts env choices) ops = _
    rw [hstart]
    exact applyNavOps_allSkip opts env (initState choices) ops hAll
  have hout : getOutput opts cli (initState choices) = JsValue.undefinedVal := by
    rw [getOutput, if_neg (by simp [hoi]), if_neg (by simp [hm])]
    simp [lookupChoice, initState]
  refine ⟨by rw [hst]; rfl, by rw [hst]; exact hout, ?_, rfl⟩
  rw [hst]
  show (handleInput opts env cli (initState choices) _).2 = _
  rw [handleInput]
  have hact : getAction opts { str := some "c", keyName := "c" } =
      some SelAction.cont := rfl
  rw [hact]
  simp [hout]

/-- Witness for C10: an all-blank list under `skipBlanks`. -/
theorem seline_c10_witness :
    (let st := applyNavOps { optsBase with skipBlanks := true } {}
      (startSession { optsBase with skipBlanks := true } {} ["", ""])
      [NavOp.cursorDown, NavOp.jump "1"]
     st.selected = -1 ∧
     getOutput { optsBase with skipBlanks := true } false st = JsValue.undefinedVal ∧
     (handleInput { optsBase with skipBlanks := true } {} false st
       { str := some "c", keyName := "c" }).2 = some JsValue.undefinedVal ∧
     cliWrite JsValue.undefinedVal = none) :=
  seline_c10_sentinel { optsBase with skipBlanks := true } {} ["", ""] false
    [NavOp.cursorDown, NavOp.jump "1"] (by decide) rfl rfl

/-- Under a true `lockLines` no key press can reach `moveSelection`: the
`getAction` table maps the reorder keys to nothing. -/
theorem getAction_lockLines (opts : ProgOpts) (k : KeyInput)
    (h : opts.lockLines = true) :
    getAction opts k ≠ some SelAction.moveUp ∧
    getAction opts k ≠ some SelAction.moveDown := by
  rw [getAction]
  generalize (match k.str.bind ACTIONS with
    | some a => some a
    | none => ACTIONS k.keyName) = a
  cases a with
  | none => simp
  | some a => cases a <;> simp [h]

/-- `applySelection` only touches the selection map and the counter. -/
theorem applySelection_fields (st : SessionState) (i : Int) (b : Bool) :
    (applySelection st i b).choices = st.choices ∧
    (applySelection st i b).selected = st.selected ∧
    (applySelection st i b).lastSelected = st.lastSelected ∧
    (applySelection st i b).rowOffset = st.rowOffset := by
  rw [applySelection]; split_ifs <;> exact ⟨rfl, rfl, rfl, rfl⟩

theorem foldApply_fields (w : List Int) (b : Bool) (st : SessionState) :
    ((w.foldl (fun s i => applySelection s i b) st).choices = st.choices ∧
     (w.foldl (fun s i => applySelection s i b) st).selected = st.selected ∧
     (w.foldl (fun s i => applySelection s i b) st).rowOffset = st.rowOffset) := by
  induction w generalizing st with
  | nil => exact ⟨rfl, rfl, rfl⟩
  | cons i w ih =>
    rw [List.foldl_cons]
    obtain ⟨e1, e2, e3⟩ := ih (applySelection st i b)
    obtain ⟨f1, f2, _, f4⟩ := applySelection_fields st i b
    exact ⟨by rw [e1, f1], by rw [e2, f2], by rw [e3, f4]⟩

theorem toggleCore_choices (st : SessionState) (shift : Bool) :
    (toggleCore st shift).choices = st.choices := by
  rw [toggleCore]
  split_ifs with h3
  · exact (applySelection_fields st st.selected _).1
  · exact (foldApply_fields _ _ st).1

theorem renumber_choices (st : SessionState) :
    (renumber st).choices = st.choices := by
  rw [renumber]

/-- `handleSelect` never touches the choice list. -/
theorem handleSelect_choices (opts : ProgOpts) (env : TtyEnv) (cli : Bool)
    (st : SessionState) (shift : Bool) :
    (handleSelect opts env cli st shift).1.choices = st.choices := by
  rw [handleSelect]
  split_ifs with h1 h2
  · show (renumber (toggleCore st shift)).choices = _
    rw [renumber_choices, toggleCore_choices]
  · show (toggleCore st shift).choices = _
    rw [toggleCore_choices]
  · rfl

/-- C5 (amended): resolving options forces `lockLines` on whenever the `-i`
CLI flag is present and no explicit `lockLines` value is passed; and
whenever the resolved `lockLines` is true, every key press leaves the
choice list unchanged (the reorder actions are unreachable).  An embedded
call that sets `outputIndex` in its options record without the CLI flag
does not get `lockLines` forced (see the counterexample). -/
theorem seline_c5_locklines :
    (∀ (cli : CliFlags) (r : OptsRecord), r.lockLines = none →
      cli.outputIndex = true →
      (setProgramOptions cli (some r)).lockLines = true) ∧
    (∀ (opts : ProgOpts) (env : TtyEnv) (c : Bool) (st : SessionState)
      (k : KeyInput), opts.lockLines = true →
      (handleInput opts env c st k).1.choices = st.choices) := by
  constructor
  · intro cli r hnone hidx
    rw [setProgramOptions]
    simp [hnone, hidx]
  · intro opts env c st k h
    rw [handleInput]
    rcases ha : getAction opts k with _ | a
    · rcases hn : jsNumericValue k.str with _ | v
      · rfl
      · exact (moveCursor_fields opts env st (v - st.selected) false).1
    · cases a with
      | quit => rfl
      | cursorUp => exact (moveCursor_fields opts env st (-1) true).1
      | cursorDown => exact (moveCursor_fields opts env st 1 true).1
      | moveUp => exact absurd ha (getAction_lockLines opts k h).1
      | moveDown => exact absurd ha (getAction_lockLines opts k h).2
      | select => exact handleSelect_choices opts env c st k.shift
      | cont => rfl

/-- Witness for C5: the CLI `-i` flag with an empty options record locks
the lines, and a locked `d` press leaves the list alone. -/
theorem seline_c5_witness :
    (setProgramOptions { outputIndex := true } (some {})).lockLines = true ∧
    (handleInput { optsBase with outputIndex := true, lockLines := true } {}
      true
      { choices := ["a", "b"], selected := 0, lastSelected := 0,
        selectionIndex := 1, rowOffset := 0, multiSelectedOptions := [] }
      { str := some "d", keyName := "d" }).1.choices = ["a", "b"] :=
  ⟨seline_c5_locklines.1 { outputIndex := true } {} rfl rfl,
   seline_c5_locklines.2 { optsBase with outputIndex := true, lockLines := true }
     {} true _ { str := some "d", keyName := "d" } rfl⟩

/-- Counterexample for C5 as stated: an embedded call passing only
`outputIndex: true` (host CLI flags all absent) resolves `lockLines` to
false, and a `d` press then reorders the choice list. -/
theorem seline_c5_counterexample :
    (setProgramOptions {} (some { outputIndex := some true })).outputIndex = true ∧
    (setProgramOptions {} (some { outputIndex := some true })).lockLines = false ∧
    (handleInput (setProgramOptions {} (some { outputIndex := some true })) {}
      false
      { choices := ["a", "b"], selected := 0, lastSelected := 0,
        selectionIndex := 1, rowOffset := 0, multiSelectedOptions := [] }
      { str := some "d", keyName := "d" }).1.choices = ["b", "a"] ∧
    (["b", "a"] : List String) ≠ ["a", "b"] := by
  refine ⟨rfl, rfl, ?_, by decide⟩
  rw [handleInput]
  have ha : getAction (setProgramOptions {} (some { outputIndex := some true }))
      { str := some "d", keyName := "d" } = some SelAction.moveDown := rfl
  rw [ha]
  show (moveSelection _ _ _ 1).choices = _
  rw [moveSelection]
  norm_num
  rw [moveCursor]
  norm_num [shouldSkipLine, setProgramOptions]

/-- C8: invoking the embedded entry point while a session is active throws
`seline already in use!` (rejecting the promise) before any state is
touched: the module state is returned unchanged. -/
theorem seline_c8_reentrancy (cli : CliFlags) (env : TtyEnv) (ms : ModuleState)
    (choices : List String) (options : OptsRecord)
    (h : ms.progResolveSet = true) :
    selineEntry cli env ms choices options =
      (ms, some "seline already in use!") := by
  rw [selineEntry, if_pos h]

/-- Witness for C8: a concrete active module state. -/
theorem seline_c8_witness :
    selineEntry {} {}
      { sess := initState ["x"], choicesSet := true, progResolveSet := true,
        opts := optsBase }
      ["y"] {} =
      ({ sess := initState ["x"], choicesSet := true, progResolveSet := true,
         opts := optsBase }, some "seline already in use!") :=
  seline_c8_reentrancy {} {} _ ["y"] {} rfl

/-- C9 (code bug): ending a single-select `-i` session on index 0 produces
the result `0`, whose write is suppressed by the falsy guard
`if (output)` — nothing is written even though the template would have
been the non-empty `"0\n"`. -/
theorem seline_c9_zero_not_written :
    (runKeys { optsBase with outputIndex := true, lockLines := true } {} true
      (startSession { optsBase with outputIndex := true, lockLines := true } {}
        ["a", "b"])
      [{ str := some "c", keyName := "c" }]).2 = some (JsValue.num 0) ∧
    cliWrite (JsValue.num 0) = none ∧
    jsTemplate (JsValue.num 0) ++ "\n" = "0\n" := by
  have hs : startSession { optsBase with outputIndex := true, lockLines := true }
      {} ["a", "b"] =
      { choices := ["a", "b"], selected := 0, lastSelected := 0,
        selectionIndex := 1, rowOffset := 0, multiSelectedOptions := [] } := by
    rw [startSession, moveCursor]
    norm_num [initState, shouldSkipLine, optsBase]
  rw [hs]
  exact ⟨rfl, rfl, rfl⟩

/-- Composing key runs: a prefix that does not end the session continues
with the suffix. -/
theorem runKeys_append (opts : ProgOpts) (env : TtyEnv) (cli : Bool)
    (st st' : SessionState) (ks1 ks2 : List KeyInput)
    (h : runKeys opts env cli st ks1 = (st', none)) :
    runKeys opts env cli st (ks1 ++ ks2) = runKeys opts env cli st' ks2 := by
  induction ks1 generalizing st with
  | nil =>
    rw [runKeys] at h
    obtain ⟨rfl, -⟩ := Prod.mk.injEq .. ▸ h
    rfl
  | cons k ks ih =>
    rw [List.cons_append, runKeys]
    rw [runKeys] at h
    rcases hk : handleInput opts env cli st k with ⟨stk, out⟩
    rw [hk] at h
    cases out with
    | none => exact ih stk h
    | some o => simp at h

/-- Options for the C2 scenario with `preserveOrder`. -/
def optsC2po : ProgOpts :=
  { optsBase with
    multiline := true
    outputIndex := true
    preserveOrder := true
    lockLines := true }

/-- Options for the C2 scenario without `preserveOrder`. -/
def optsC2npo : ProgOpts :=
  { optsBase with
    multiline := true
    outputIndex := true
    lockLines := true }

/-- The C2 key sequence: jump to 2, select, jump to 0, select. -/
def c2keys : List KeyInput :=
  [{ str := some "2", keyName := "2" }, { str := some "s", keyName := "s" },
   { str := some "0", keyName := "0" }, { str := some "s", keyName := "s" }]

/-- The state after the C2 key sequence (same for both option sets): lines
2 then 0 selected, with order values 1 and 2. -/
def c2st4 : SessionState :=
  { choices := ["a", "b", "c"], selected := 0, lastSelected := 0,
    selectionIndex := 3, rowOffset := 0,
    multiSelectedOptions := [(0, 2), (2, 1)] }

theorem c2_trace_po (cli : Bool) :
    runKeys optsC2po {} cli (startSession optsC2po {} ["a", "b", "c"]) c2keys =
      (c2st4, none) := by
  have hs : startSession optsC2po {} ["a", "b", "c"] =
      { choices := ["a", "b", "c"], selected := 0, lastSelected := 0,
        selectionIndex := 1, rowOffset := 0, multiSelectedOptions := [] } := by
    rw [startSession, moveCursor]
    norm_num [initState, shouldSkipLine, optsC2po, optsBase]
  have h1 : handleInput optsC2po {} cli
      { choices := ["a", "b", "c"], selected := 0, lastSelected := 0,
        selectionIndex := 1, rowOffset := 0, multiSelectedOptions := [] }
      { str := some "2", keyName := "2" } =
      ({ choices := ["a", "b", "c"], selected := 2, lastSelected := 0,
         selectionIndex := 1, rowOffset := 0, multiSelectedOptions := [] },
       none) := by
    rw [handleInput,
      show getAction optsC2po { str := some "2", keyName := "2" } = none from rfl,
      show jsNumericValue (some "2") = some 2 by decide]
    dsimp only
    rw [moveCursor]
    norm_num [shouldSkipLine, optsC2po, optsBase]
  have h2 : handleInput optsC2po {} cli
      { choices := ["a", "b", "c"], selected := 2, lastSelected := 0,
        selectionIndex := 1, rowOffset := 0, multiSelectedOptions := [] }
      { str := some "s", keyName := "s" } =
      ({ choices := ["a", "b", "c"], selected := 2, lastSelected := 2,
         selectionIndex := 2, rowOffset := 0,
         multiSelectedOptions := [(2, 1)] }, none) := by
    cases cli <;> decide
  have h3 : handleInput optsC2po {} cli
      { choices := ["a", "b", "c"], selected := 2, lastSelected := 2,
        selectionIndex := 2, rowOffset := 0, multiSelectedOptions := [(2, 1)] }
      { str := some "0", keyName := "0" } =
      ({ choices := ["a", "b", "c"], selected := 0, lastSelected := 2,
         selectionIndex := 2, rowOffset := 0,
         multiSelectedOptions := [(2, 1)] }, none) := by
    rw [handleInput,
      show getAction optsC2po { str := some "0", keyName := "0" } = none from rfl,
      show jsNumericValue (some "0") = some 0 by decide]
    dsimp only
    rw [moveCursor]
    norm_num [shouldSkipLine, optsC2po, optsBase]
  have h4 : handleInput optsC2po {} cli
      { choices := ["a", "b", "c"], selected := 0, lastSelected := 2,
        selectionIndex := 2, rowOffset := 0, multiSelectedOptions := [(2, 1)] }
      { str := some "s", keyName := "s" } =
      (c2st4, none) := by
    cases cli <;> decide
  show runKeys optsC2po {} cli _ (_ :: _ :: _ :: _ :: []) = _
  rw [hs, runKeys, h1]
  dsimp only
  rw [runKeys, h2]
  dsimp only
  rw [runKeys, h3]
  dsimp only
  rw [runKeys, h4]
  rfl

theorem c2_trace_npo (cli : Bool) :
    runKeys optsC2npo {} cli (startSession optsC2npo {} ["a", "b", "c"])
      c2keys = (c2st4, none) := by
  have hs : startSession optsC2npo {} ["a", "b", "c"] =
      { choices := ["a", "b", "c"], selected := 0, lastSelected := 0,
        selectionIndex := 1, rowOffset := 0, multiSelectedOptions := [] } := by
    rw [startSession, moveCursor]
    norm_num [initState, shouldSkipLine, optsC2npo, optsBase]
  have h1 : handleInput optsC2npo {} cli
      { choices := ["a", "b", "c"], selected := 0, lastSelected := 0,
        selectionIndex := 1, rowOffset := 0, multiSelectedOptions := [] }
      { str := some "2", keyName := "2" } =
      ({ choices := ["a", "b", "c"], selected := 2, lastSelected := 0,
         selectionIndex := 1, rowOffset := 0, multiSelectedOptions := [] },
       none) := by
    rw [handleInput,
      show getAction optsC2npo { str := some "2", keyName := "2" } = none from
        rfl,
      show jsNumericValue (some "2") = some 2 by decide]
    dsimp only
    rw [moveCursor]
    norm_num [shouldSkipLine, optsC2npo, optsBase]
  have h2 : handleInput optsC2npo {} cli
      { choices := ["a", "b", "c"], selected := 2, lastSelected := 0,
        selectionIndex := 1, rowOffset := 0, multiSelectedOptions := [] }
      { str := some "s", keyName := "s" } =
      ({ choices := ["a", "b", "c"], selected := 2, lastSelected := 2,
         selectionIndex := 2, rowOffset := 0,
         multiSelectedOptions := [(2, 1)] }, none) := by
    cases cli <;> decide
  have h3 : handleInput optsC2npo {} cli
      { choices := ["a", "b", "c"], selected := 2, lastSelected := 2,
        selectionIndex := 2, rowOffset := 0, multiSelectedOptions := [(2, 1)] }
      { str := some "0", keyName := "0" } =
      ({ choices := ["a", "b", "c"], selected := 0, lastSelected := 2,
         selectionIndex := 2, rowOffset := 0,
         multiSelectedOptions := [(2, 1)] }, none) := by
    rw [handleInput,
      show getAction optsC2npo { str := some "0", keyName := "0" } = none from
        rfl,
      show jsNumericValue (some "0") = some 0 by decide]
    dsimp only
    rw [moveCursor]
    norm_num [shouldSkipLine, optsC2npo, optsBase]
  have h4 : handleInput optsC2npo {} cli
      { choices := ["a", "b", "c"], selected := 0, lastSelected := 2,
        selectionIndex := 2, rowOffset := 0, multiSelectedOptions := [(2, 1)] }
      { str := some "s", keyName := "s" } =
      (c2st4, none) := by
    cases cli <;> decide
  show runKeys optsC2npo {} cli _ (_ :: _ :: _ :: _ :: []) = _
  rw [hs, runKeys, h1]
  dsimp only
  rw [runKeys, h2]
  dsimp only
  rw [runKeys, h3]
  dsimp only
  rw [runKeys, h4]
  rfl

/-- Counterexample for C2 as stated: with `preserveOrder`, the formatter's
order-indexed sparse array has an unused slot `0`, so the CLI string is
`"\n2\n0"` (not `"2\n0"`) and the embedded array is `[<hole>, 2, 0]`
(not `[2, 0]`). -/
theorem seline_c2_counterexample :
    (runKeys optsC2po {} true (startSession optsC2po {} ["a", "b", "c"])
      (c2keys ++ [{ str := some "c", keyName := "c" }])).2 =
        some (JsValue.str "\n2\n0") ∧
    JsValue.str "\n2\n0" ≠ JsValue.str "2\n0" ∧
    (runKeys optsC2po {} false (startSession optsC2po {} ["a", "b", "c"])
      (c2keys ++ [{ str := some "c", keyName := "c" }])).2 =
        some (JsValue.numArr [none, some 2, some 0]) ∧
    JsValue.numArr [none, some 2, some 0] ≠
      JsValue.numArr [some 2, some 0] := by
  refine ⟨?_, by decide, ?_, by decide⟩
  · rw [runKeys_append _ _ _ _ _ _ _ (c2_trace_po true)]
    decide
  · rw [runKeys_append _ _ _ _ _ _ _ (c2_trace_po false)]
    decide

/-- C2 (amended): selecting indices 2 then 0 with `outputIndex` and
`multiline`: with `preserveOrder` the formatter indexes a sparse array by
order value (slot 0 unused), giving CLI `"\n2\n0"` and embedded
`[<hole>, 2, 0]`; without `preserveOrder` it yields the indices in list
order, `[0, 2]` (CLI `"0\n2"`). -/
theorem seline_c2_output :
    (runKeys optsC2po {} true (startSession optsC2po {} ["a", "b", "c"])
      (c2keys ++ [{ str := some "c", keyName := "c" }])).2 =
        some (JsValue.str "\n2\n0") ∧
    (runKeys optsC2po {} false (startSession optsC2po {} ["a", "b", "c"])
      (c2keys ++ [{ str := some "c", keyName := "c" }])).2 =
        some (JsValue.numArr [none, some 2, some 0]) ∧
    (runKeys optsC2npo {} true (startSession optsC2npo {} ["a", "b", "c"])
      (c2keys ++ [{ str := some "c", keyName := "c" }])).2 =
        some (JsValue.str "0\n2") ∧
    (runKeys optsC2npo {} false (startSession optsC2npo {} ["a", "b", "c"])
      (c2keys ++ [{ str := some "c", keyName := "c" }])).2 =
        some (JsValue.numArr [some 0, some 2]) := by
  refine ⟨?_, ?_, ?_, ?_⟩
  · rw [runKeys_append _ _ _ _ _ _ _ (c2_trace_po true)]
    decide
  · rw [runKeys_append _ _ _ _ _ _ _ (c2_trace_po false)]
    decide
  · rw [runKeys_append _ _ _ _ _ _ _ (c2_trace_npo true)]
    decide
  · rw [runKeys_append _ _ _ _ _ _ _ (c2_trace_npo false)]
    decide

theorem mapGet_mapSet_self (m : List (Int × Nat)) (k : Int) (v : Nat) :
    mapGet (mapSet m k v) k = v := by
  induction m with
  | nil => simp [mapSet, mapGet]
  | cons kv rest ih =>
    rw [mapSet]
    split_ifs with h1 h2
    · rw [mapGet, if_pos rfl]
    · rw [mapGet, if_pos rfl]
    · rw [mapGet, if_neg (by omega)]
      exact ih

theorem mapGet_mapSet_ne (m : List (Int × Nat)) (k k' : Int) (v : Nat)
    (h : k' ≠ k) : mapGet (mapSet m k v) k' = mapGet m k' := by
  induction m with
  | nil => simp [mapSet, mapGet, h]
  | cons kv rest ih =>
    obtain ⟨k1, v1⟩ := kv
    rw [mapSet]
    split_ifs with h1 h2
    · subst h1
      rw [mapGet, if_neg h, mapGet, if_neg h]
    · rw [mapGet, if_neg h]
    · rw [mapGet, mapGet]
      split_ifs with h3
      · rfl
      · exact ih

theorem rangeWalk_mem (a b k : Int) :
    k ∈ rangeWalk a b ↔ (min a b ≤ k ∧ k ≤ max a b) := by
  induction a, b using rangeWalk.induct with
  | case1 b =>
    rw [rangeWalk, if_pos rfl]
    simp
    omega
  | case2 a b hne ih =>
    rw [rangeWalk, if_neg hne, List.mem_cons]
    by_cases hba : b > a
    · simp only [hba, dite_eq_ite, if_true] at ih ⊢
      rw [ih]
      omega
    · simp only [hba, dite_eq_ite, if_false] at ih ⊢
      rw [ih]
      omega

theorem rangeWalk_length (a b : Int) :
    (rangeWalk a b).length = (b - a).natAbs + 1 := by
  induction a, b using rangeWalk.induct with
  | case1 b => rw [rangeWalk, if_pos rfl]; simp
  | case2 a b hne ih =>
    rw [rangeWalk, if_neg hne, List.length_cons]
    by_cases hba : b > a
    · simp only [hba, dite_eq_ite, if_true] at ih ⊢
      rw [ih]
      omega
    · simp only [hba, dite_eq_ite, if_false] at ih ⊢
      rw [ih]
      omega

theorem rangeWalk_nodup (a b : Int) : (rangeWalk a b).Nodup := by
  induction a, b using rangeWalk.induct with
  | case1 b => rw [rangeWalk, if_pos rfl]; simp
  | case2 a b hne ih =>
    rw [rangeWalk, if_neg hne]
    refine List.nodup_cons.mpr ⟨?_, ?_⟩
    · rw [rangeWalk_mem]
      by_cases hba : b > a
      · simp only [hba, dite_eq_ite, if_true]
        omega
      · simp only [hba, dite_eq_ite, if_false]
        omega
    · exact ih

theorem rangeWalk_get? (a b : Int) (j : Nat) (hj : j ≤ (b - a).natAbs) :
    (rangeWalk a b).get? j =
      some (a + (if b ≥ a then (j : Int) else -(j : Int))) := by
  induction a, b using rangeWalk.induct generalizing j with
  | case1 b =>
    rw [rangeWalk, if_pos rfl]
    have : j = 0 := by omega
    subst this
    simp
  | case2 a b hne ih =>
    rw [rangeWalk, if_neg hne]
    by_cases hba : b > a
    · simp only [hba, dite_eq_ite, if_true] at ih ⊢
      cases j with
      | zero => simp
      | succ jj =>
        rw [List.get?_cons_succ, ih jj (by omega)]
        rw [if_pos (by omega), if_pos (by omega)]
        push_cast
        ring_nf
    · simp only [hba, dite_eq_ite, if_false] at ih ⊢
      revert hj
      cases j with
      | zero => intro hj; simp
      | succ jj =>
        intro hj
        have harg : jj ≤ (b - (a + -1)).natAbs := by omega
        have hih := ih jj harg
        rw [List.get?_cons_succ, hih]
        by_cases hend : b ≥ a + -1
        · have hjj : jj = 0 := by omega
          subst hjj
          rw [if_pos hend, if_neg (by omega)]
          norm_num
        · rw [if_neg hend, if_neg (by omega)]
          push_cast
          ring_nf

/-- Folding `applySelection` with the selecting outcome assigns consecutive
counter values in walk order and advances the counter by the walk length;
unvisited keys are untouched. -/
theorem foldSelect_spec (w : List Int) (st : SessionState) (hnd : w.Nodup) :
    ((w.foldl (fun s i => applySelection s i false) st).selectionIndex =
      st.selectionIndex + w.length) ∧
    (∀ (j : Nat) (k : Int), w.get? j = some k →
      mapGet (w.foldl (fun s i => applySelection s i false)
        st).multiSelectedOptions k = st.selectionIndex + j) ∧
    (∀ k : Int, k ∉ w →
      mapGet (w.foldl (fun s i => applySelection s i false)
        st).multiSelectedOptions k = mapGet st.multiSelectedOptions k) := by
  induction w generalizing st with
  | nil =>
    refine ⟨rfl, ?_, fun k _ => rfl⟩
    intro j k hj
    simp at hj
  | cons i w ih =>
    obtain ⟨hni, hndw⟩ := List.nodup_cons.mp hnd
    obtain ⟨ihc, ihm, ihu⟩ := ih (applySelection st i false) hndw
    rw [List.foldl_cons]
    refine ⟨?_, ?_, ?_⟩
    · rw [ihc, applySelection]
      simp
      omega
    · intro j k hj
      cases j with
      | zero =>
        rw [List.get?_cons_zero] at hj
        injection hj with hik
        subst hik
        rw [ihu i hni, applySelection]
        simp only [if_false, Bool.false_eq_true]
        rw [mapGet_mapSet_self]
        omega
      | succ jj =>
        rw [List.get?_cons_succ] at hj
        rw [ihm jj k hj, applySelection]
        simp only [if_false, Bool.false_eq_true]
        omega
    · intro k hk
      rw [List.mem_cons] at hk
      push_neg at hk
      rw [ihu k hk.2, applySelection]
      simp only [if_false, Bool.false_eq_true]
      exact mapGet_mapSet_ne _ _ _ _ hk.1

/-- Folding `applySelection` with the deselecting outcome zeroes every
visited key, leaves the counter alone, and does not touch other keys. -/
theorem foldDeselect_spec (w : List Int) (st : SessionState) (hnd : w.Nodup) :
    ((w.foldl (fun s i => applySelection s i true) st).selectionIndex =
      st.selectionIndex) ∧
    (∀ k : Int, k ∈ w →
      mapGet (w.foldl (fun s i => applySelection s i true)
        st).multiSelectedOptions k = 0) ∧
    (∀ k : Int, k ∉ w →
      mapGet (w.foldl (fun s i => applySelection s i true)
        st).multiSelectedOptions k = mapGet st.multiSelectedOptions k) := by
  induction w generalizing st with
  | nil => exact ⟨rfl, fun k hk => absurd hk (List.not_mem_nil k), fun k _ => rfl⟩
  | cons i w ih =>
    obtain ⟨hni, hndw⟩ := List.nodup_cons.mp hnd
    obtain ⟨ihc, ihm, ihu⟩ := ih (applySelection st i true) hndw
    rw [List.foldl_cons]
    refine ⟨?_, ?_, ?_⟩
    · rw [ihc, applySelection]
      simp
    · intro k hk
      rw [List.mem_cons] at hk
      rcases hk with rfl | hk
      · rw [ihu k hni, applySelection]
        simp only [if_true]
        exact mapGet_mapSet_self _ _ _
      · exact ihm k hk
    · intro k hk
      rw [List.mem_cons] at hk
      push_neg at hk
      rw [ihu k hk.2, applySelection]
      simp only [if_true]
      exact mapGet_mapSet_ne _ _ _ _ hk.1

/-- C3 (amended): a shift-extended toggle with anchor `a` and highlighted
target `b`, `a ≠ b`, sets every index between `a` and `b` inclusive to
SELECTED if the anchor was selected before the toggle (assigning
consecutive counter values in walk order, direction the sign of `b - a`)
and to DESELECTED if the anchor was unselected — the negation
`!multiSelectedOptions[lastSelected]` is passed to `applySelection`, whose
true case zeroes the entry.  Stated with `preserveOrder` off, so the
assigned counter values are the final ones. -/
theorem seline_c3_shift_range (opts : ProgOpts) (env : TtyEnv) (cli : Bool)
    (st : SessionState)
    (hm : opts.multiline = true) (hp : opts.preserveOrder = false)
    (hne : st.lastSelected ≠ st.selected) :
    let a := st.lastSelected
    let b := st.selected
    let st' := (handleSelect opts env cli st true).1
    (mapGet st.multiSelectedOptions a ≠ 0 →
      (∀ k, min a b ≤ k → k ≤ max a b →
        mapGet st'.multiSelectedOptions k =
          st.selectionIndex + (k - a).natAbs) ∧
      st'.selectionIndex = st.selectionIndex + (b - a).natAbs + 1) ∧
    (mapGet st.multiSelectedOptions a = 0 →
      (∀ k, min a b ≤ k → k ≤ max a b →
        mapGet st'.multiSelectedOptions k = 0) ∧
      st'.selectionIndex = st.selectionIndex) ∧
    (∀ k, (k < min a b ∨ max a b < k) →
      mapGet st'.multiSelectedOptions k = mapGet st.multiSelectedOptions k) ∧
    st'.lastSelected = st.selected ∧ st'.selected = st.selected ∧
    st'.choices = st.choices := by
  intro a b st'
  have hst' : st' = toggleCore st true := by
    show (handleSelect opts env cli st true).1 = _
    rw [handleSelect, if_neg (by simp [hm])]
    show (if opts.multiline = true ∧ opts.preserveOrder = true then
      renumber (toggleCore st true) else toggleCore st true) = _
    rw [if_neg (by simp [hp])]
  have htog : toggleCore st true =
      { (rangeWalk st.lastSelected st.selected).foldl
          (fun s i => applySelection s i
            (mapGet st.multiSelectedOptions st.lastSelected = 0)) st with
        lastSelected :=
          ((rangeWalk st.lastSelected st.selected).foldl
            (fun s i => applySelection s i
              (mapGet st.multiSelectedOptions st.lastSelected = 0)) st).selected } := by
    rw [toggleCore, if_neg (by simp [hne])]
  have hnd := rangeWalk_nodup st.lastSelected st.selected
  by_cases hsel : mapGet st.multiSelectedOptions st.lastSelected = 0
  · -- anchor unselected: the walk deselects
    have hbool : (decide (mapGet st.multiSelectedOptions st.lastSelected = 0)) =
        true := by simp [hsel]
    rw [hst', htog, hbool] at *
    obtain ⟨hc, hmem, hout⟩ :=
      foldDeselect_spec (rangeWalk st.lastSelected st.selected) st hnd
    obtain ⟨hf1, hf2, hf3⟩ :=
      foldApply_fields (rangeWalk st.lastSelected st.selected) true st
    refine ⟨fun hna => absurd hsel hna, fun _ => ⟨?_, hc⟩, ?_, ?_, ?_, ?_⟩
    · intro k h1 h2
      exact hmem k ((rangeWalk_mem _ _ k).mpr ⟨h1, h2⟩)
    · intro k hk
      apply hout
      rw [rangeWalk_mem]
      omega
    · exact hf2
    · exact hf2
    · exact hf1
  · -- anchor selected: the walk selects with fresh counter values
    have hbool : (decide (mapGet st.multiSelectedOptions st.lastSelected = 0)) =
        false := by simp [hsel]
    rw [hst', htog, hbool] at *
    obtain ⟨hc, hval, hout⟩ :=
      foldSelect_spec (rangeWalk st.lastSelected st.selected) st hnd
    obtain ⟨hf1, hf2, hf3⟩ :=
      foldApply_fields (rangeWalk st.lastSelected st.selected) false st
    refine ⟨fun _ => ⟨?_, ?_⟩, fun h0 => absurd h0 hsel, ?_, ?_, ?_, ?_⟩
    · intro k h1 h2
      have hj : ((k - st.lastSelected).natAbs) ≤
          (st.selected - st.lastSelected).natAbs := by omega
      have hget := rangeWalk_get? st.lastSelected st.selected
        ((k - st.lastSelected).natAbs) hj
      have hgetk : (rangeWalk st.lastSelected st.selected).get?
          ((k - st.lastSelected).natAbs) = some k := by
        rw [hget]
        simp only [Option.some.injEq]
        split_ifs <;> omega
      exact hval _ k hgetk
    · rw [hc, rangeWalk_length]
      omega
    · intro k hk
      apply hout
      rw [rangeWalk_mem]
      omega
    · exact hf2
    · exact hf2
    · exact hf1

/-- Multi-select options used by the C3 scenario. -/
def optsM3 : ProgOpts := { optsBase with multiline := true }

/-- The C3 counterexample start state: five lines, anchor 0 (unselected),
highlight 2. -/
def c3st : SessionState :=
  { choices := ["a", "b", "c", "d", "e"], selected := 2, lastSelected := 0,
    selectionIndex := 1, rowOffset := 0, multiSelectedOptions := [] }

theorem c3_rangeWalk_eval : rangeWalk (0 : Int) 2 = [0, 1, 2] := by
  rw [rangeWalk]
  norm_num
  rw [rangeWalk]
  norm_num
  rw [rangeWalk]
  norm_num

/-- Counterexample for C3 as stated: the anchor (index 0) is unselected
before the shift-toggle to index 2, so the claim requires indices 0..2 to
become selected; the code instead sets all three entries to 0
(deselected), because `!multiSelectedOptions[lastSelected]` is handed to
`applySelection`, whose true branch zeroes the entry. -/
theorem seline_c3_counterexample :
    mapGet c3st.multiSelectedOptions c3st.lastSelected = 0 ∧
    mapGet ((handleSelect optsM3 {} true c3st true).1).multiSelectedOptions 0
      = 0 ∧
    mapGet ((handleSelect optsM3 {} true c3st true).1).multiSelectedOptions 1
      = 0 ∧
    mapGet ((handleSelect optsM3 {} true c3st true).1).multiSelectedOptions 2
      = 0 ∧
    ¬(0 < mapGet
      ((handleSelect optsM3 {} true c3st true).1).multiSelectedOptions 1) := by
  have htog : (handleSelect optsM3 {} true c3st true).1 =
      { choices := ["a", "b", "c", "d", "e"], selected := 2, lastSelected := 2,
        selectionIndex := 1, rowOffset := 0,
        multiSelectedOptions := [(0, 0), (1, 0), (2, 0)] } := by
    rw [handleSelect, if_neg (by decide)]
    show (if optsM3.multiline = true ∧ optsM3.preserveOrder = true then
      renumber (toggleCore c3st true) else toggleCore c3st true) = _
    rw [if_neg (by decide)]
    rw [toggleCore, if_neg (by decide)]
    dsimp only [c3st]
    rw [c3_rangeWalk_eval]
    decide
  rw [htog]
  decide

/-- Witness for C3: anchor 3 carrying order value 7 (selected), shift-toggle
down to highlight 1 on a five-line list. -/
theorem seline_c3_witness :
    (let a := (3 : Int)
     let b := (1 : Int)
     let st : SessionState :=
       { choices := ["a", "b", "c", "d", "e"]
         selected := 1
         lastSelected := 3
         selectionIndex := 8
         rowOffset := 0
         multiSelectedOptions := [(3, 7)] }
     let st' := (handleSelect optsM3 {} true st true).1
     (mapGet st.multiSelectedOptions a ≠ 0 →
       (∀ k, min a b ≤ k → k ≤ max a b →
         mapGet st'.multiSelectedOptions k =
           st.selectionIndex + (k - a).natAbs) ∧
       st'.selectionIndex = st.selectionIndex + (b - a).natAbs + 1) ∧
     (mapGet st.multiSelectedOptions a = 0 →
       (∀ k, min a b ≤ k → k ≤ max a b →
         mapGet st'.multiSelectedOptions k = 0) ∧
       st'.selectionIndex = st.selectionIndex) ∧
     (∀ k, (k < min a b ∨ max a b < k) →
       mapGet st'.multiSelectedOptions k = mapGet st.multiSelectedOptions k) ∧
     st'.lastSelected = st.selected ∧ st'.selected = st.selected ∧
     st'.choices = st.choices) :=
  seline_c3_shift_range optsM3 {} true
    { choices := ["a", "b", "c", "d", "e"], selected := 1, lastSelected := 3,
      selectionIndex := 8, rowOffset := 0, multiSelectedOptions := [(3, 7)] }
    rfl rfl (by decide)

/-- Read `a[i]` from a JavaScript array: holes, out-of-range reads, and
explicit `undefined` entries all read as `undefined`. -/
def sparseGet {α : Type} (a : List (Option α)) (i : Nat) : Option α :=
  a[i]?.join

theorem sparseGet_set_self {α : Type} (a : List (Option α)) (i : Nat)
    (v : Option α) : sparseGet (sparseSet a i v) i = v := by
  rw [sparseSet]
  split_ifs with h
  · rw [sparseGet, List.getElem?_set_self, Option.join]
    · simp
    · exact h
  · push_neg at h
    rw [sparseGet, List.getElem?_append_right (by simp; omega)]
    have : i - (a ++ List.replicate (i - a.length) none).length = 0 := by
      simp
      omega
    rw [this]
    simp

theorem sparseGet_set_ne {α : Type} (a : List (Option α)) (i j : Nat)
    (v : Option α) (h : j ≠ i) :
    sparseGet (sparseSet a i v) j = sparseGet a j := by
  rw [sparseSet]
  split_ifs with hlt
  · rw [sparseGet, sparseGet, List.getElem?_set_ne (by omega)]
  · push_neg at hlt
    rcases lt_or_ge j a.length with hja | hja
    · rw [sparseGet, sparseGet,
        List.getElem?_append_left (by simp; omega),
        List.getElem?_append_left hja]
    · rcases lt_or_ge j i with hji | hji
      · rw [sparseGet, sparseGet,
          List.getElem?_append_left (by simp; omega),
          List.getElem?_append_right hja, List.getElem?_replicate,
          if_pos (by omega)]
        rw [show (a[j]? = none) from List.getElem?_eq_none hja]
        simp
      · have hout : (a ++ List.replicate (i - a.length) none ++ [v]).length ≤ j := by
          simp
          omega
        rw [sparseGet, sparseGet, List.getElem?_eq_none hout,
          List.getElem?_eq_none hja]

/-- Entries whose (nonzero) order value differs from `v` never write slot
`v` of the sparse output array. -/
theorem sparseFold_untouched {α : Type} (f : Int → Option α)
    (L : List (Int × Nat)) (a₀ : List (Option α)) (v : Nat)
    (hv : ∀ kv ∈ L, kv.2 ≠ 0 → kv.2 ≠ v) :
    sparseGet (L.foldl
      (fun a kv => if kv.2 = 0 then a else sparseSet a kv.2 (f kv.1)) a₀) v =
      sparseGet a₀ v := by
  induction L generalizing a₀ with
  | nil => rfl
  | cons kv rest ih =>
    rw [List.foldl_cons]
    rw [ih _ (fun kv2 hkv2 => hv kv2 (List.mem_cons.mpr (Or.inr hkv2)))]
    split_ifs with h0
    · rfl
    · exact sparseGet_set_ne a₀ kv.2 v (f kv.1)
        (Ne.symm (hv kv (List.mem_cons_self kv rest) h0))

/-- When the nonzero order values of the selection entries are distinct,
slot `v` of the sparse output array built by `getOutput` holds exactly the
image of the key carrying order value `v`. -/
theorem sparseFold_get {α : Type} (f : Int → Option α) (L : List (Int × Nat))
    (a₀ : List (Option α)) (k : Int) (v : Nat)
    (hnd : ((L.filter (fun kv => kv.2 ≠ 0)).map (fun kv => kv.2)).Nodup)
    (hkv : (k, v) ∈ L) (hv : v ≠ 0) :
    sparseGet (L.foldl
      (fun a kv => if kv.2 = 0 then a else sparseSet a kv.2 (f kv.1)) a₀) v =
      f k := by
  induction L generalizing a₀ with
  | nil => exact absurd hkv (List.not_mem_nil _)
  | cons kv rest ih =>
    rw [List.foldl_cons]
    have hfilter : (kv :: rest).filter (fun kv => kv.2 ≠ 0) =
        if kv.2 ≠ 0 then kv :: rest.filter (fun kv => kv.2 ≠ 0)
        else rest.filter (fun kv => kv.2 ≠ 0) := by
      rw [List.filter_cons]
      split_ifs with h1 h2 <;> simp_all
    rcases List.mem_cons.mp hkv with heq | hmem
    · obtain rfl := heq
      dsimp only
      rw [if_neg hv]
      rw [sparseFold_untouched]
      · exact sparseGet_set_self a₀ v (f k)
      · intro kv2 hkv2 hkv2nz
        rw [hfilter, if_pos hv] at hnd
        simp only [List.map_cons, List.nodup_cons] at hnd
        intro hcontra
        exact hnd.1 (hcontra ▸ List.mem_map.mpr
          ⟨kv2, List.mem_filter.mpr ⟨hkv2, by simpa using hkv2nz⟩, rfl⟩)
    · have hsub : List.Sublist
          ((rest.filter (fun kv => kv.2 ≠ 0)).map fun kv => kv.2)
          (((kv :: rest).filter (fun kv => kv.2 ≠ 0)).map fun kv => kv.2) :=
        ((List.sublist_cons_self kv rest).filter _).map _
      have hndr := hsub.nodup hnd
      split_ifs with h0
      · exact ih _ hndr hmem
      · exact ih _ hndr hmem

/-- Membership of a line of text in an output value delivered to an
embedded caller. -/
def JsValue.hasLine (v : JsValue) (s : String) : Prop :=
  match v with
  | .strArr l => s ∈ l
  | _ => False

/-- C7 (amended): with `multiline` on and `outputIndex` off, the embedded
output contains the text of every selected line when `preserveOrder` is
off (original list order); with `preserveOrder` on it contains the text of
every selected line whose text is NON-EMPTY (order values assumed
distinct, as the renumbering keeps them) — a selected line whose text is
`""` is dropped by the formatter's truthiness filter (see the
counterexample). -/
theorem seline_c7_selected_text (opts : ProgOpts) (st : SessionState)
    (hm : opts.multiline = true) (hoi : opts.outputIndex = false) :
    ((opts.preserveOrder = false → ∀ (i : Nat) (t : String),
      st.choices.get? i = some t →
      mapGet st.multiSelectedOptions (i : Int) ≠ 0 →
      (getOutput opts false st).hasLine t) ∧
     (opts.preserveOrder = true →
      ((st.multiSelectedOptions.filter (fun kv => kv.2 ≠ 0)).map
        (fun kv => kv.2)).Nodup →
      ∀ (k : Int) (v : Nat) (t : String),
        (k, v) ∈ st.multiSelectedOptions → v ≠ 0 →
        lookupChoice st.choices k = some t → t ≠ "" →
        (getOutput opts false st).hasLine t)) := by
  constructor
  · intro hp i t hget hsel
    rw [getOutput, if_neg (by simp [hoi]), if_pos (by simp [hm]),
      if_neg (by simp [hp])]
    simp only [if_false, Bool.false_eq_true]
    show t ∈ (st.choices.enum.filter _).map _
    apply List.mem_map.mpr
    refine ⟨(i, t), ?_, rfl⟩
    apply List.mem_filter.mpr
    refine ⟨List.mk_mem_enum_iff_get?.mpr (by simpa using hget), ?_⟩
    simpa using hsel
  · intro hp hnd k v t hkv hv hlook ht
    rw [getOutput, if_neg (by simp [hoi]), if_pos (by simp [hm]),
      if_pos (by simp [hp])]
    simp only [if_true]
    show t ∈ List.filter _ (List.map _ _)
    have hslot := sparseFold_get (lookupChoice st.choices)
      st.multiSelectedOptions [] k v hnd hkv hv
    rw [hlook] at hslot
    have hmem : (some t) ∈ st.multiSelectedOptions.foldl
        (fun a kv => if kv.2 = 0 then a
          else sparseSet a kv.2 (lookupChoice st.choices kv.1)) [] := by
      rw [sparseGet] at hslot
      have := Option.join_eq_some.mp hslot
      exact List.getElem?_mem this
    apply List.mem_filter.mpr
    refine ⟨?_, by simpa using ht⟩
    apply List.mem_map.mpr
    exact ⟨some t, hmem, rfl⟩

/-- Options for the C7 scenario (text output, `preserveOrder`). -/
def optsPO7 : ProgOpts :=
  { optsBase with
    multiline := true
    preserveOrder := true }

/-- C7 counterexample state: the empty line 0 and the line `"x"` are both
selected (order values 1 and 2). -/
def st7c : SessionState :=
  { choices := ["", "x"], selected := 1, lastSelected := 1,
    selectionIndex := 3, rowOffset := 0,
    multiSelectedOptions := [(0, 1), (1, 2)] }

/-- Counterexample for C7 as stated: line 0 is selected and its text is
`""`, but the `preserveOrder` output is `["x"]` — the empty text does not
appear, dropped by the formatter's `filter(val => !!val)`. -/
theorem seline_c7_counterexample :
    (0, 1) ∈ st7c.multiSelectedOptions ∧
    lookupChoice st7c.choices 0 = some "" ∧
    getOutput optsPO7 false st7c = JsValue.strArr ["x"] ∧
    ¬(getOutput optsPO7 false st7c).hasLine "" := by
  have hout : getOutput optsPO7 false st7c = JsValue.strArr ["x"] := by decide
  refine ⟨by decide, by decide, hout, ?_⟩
  rw [hout]
  simp [JsValue.hasLine]

/-- Witness for C7: both parts applied to a concrete two-line state. -/
theorem seline_c7_witness :
    ((optsM3.preserveOrder = false → ∀ (i : Nat) (t : String),
      st7c.choices.get? i = some t →
      mapGet st7c.multiSelectedOptions (i : Int) ≠ 0 →
      (getOutput optsM3 false st7c).hasLine t) ∧
     (optsM3.preserveOrder = true →
      ((st7c.multiSelectedOptions.filter (fun kv => kv.2 ≠ 0)).map
        (fun kv => kv.2)).Nodup →
      ∀ (k : Int) (v : Nat) (t : String),
        (k, v) ∈ st7c.multiSelectedOptions → v ≠ 0 →
        lookupChoice st7c.choices k = some t → t ≠ "" →
        (getOutput optsM3 false st7c).hasLine t)) :=
  seline_c7_selected_text optsM3 st7c rfl rfl

/-- The selection-map object representation invariant: keys strictly
ascending, as `mapSet` maintains and `Object.entries` enumerates. -/
def KeysSorted (m : List (Int × Nat)) : Prop :=
  List.Pairwise (fun x y => x.1 < y.1) m

theorem KeysSorted.nodup_keys {m : List (Int × Nat)} (h : KeysSorted m) :
    (m.map (fun kv => kv.1)).Nodup := by
  have h2 : List.Pairwise (fun a b : Int => a < b) (m.map (fun kv => kv.1)) :=
    (List.pairwise_map).mpr h
  exact h2.imp (fun hab => ne_of_lt hab)

theorem KeysSorted.nodupPairs {m : List (Int × Nat)} (h : KeysSorted m) :
    m.Nodup :=
  h.imp (fun hab => by
    intro hcontra
    rw [hcontra] at hab
    exact lt_irrefl _ hab)

theorem mem_mapSet {m : List (Int × Nat)} {k : Int} {v : Nat} {x : Int × Nat}
    (h : x ∈ mapSet m k v) : x = (k, v) ∨ x ∈ m := by
  induction m with
  | nil => simpa [mapSet] using h
  | cons kv rest ih =>
    obtain ⟨k1, v1⟩ := kv
    rw [mapSet] at h
    split_ifs at h with h1 h2
    · rcases List.mem_cons.mp h with rfl | hx
      · exact Or.inl rfl
      · exact Or.inr (List.mem_cons.mpr (Or.inr hx))
    · rcases List.mem_cons.mp h with rfl | hx
      · exact Or.inl rfl
      · exact Or.inr hx
    · rcases List.mem_cons.mp h with rfl | hx
      · exact Or.inr (List.mem_cons_self _ _)
      · rcases ih hx with rfl | hx2
        · exact Or.inl rfl
        · exact Or.inr (List.mem_cons.mpr (Or.inr hx2))

theorem mapSet_keysSorted (m : List (Int × Nat)) (k : Int) (v : Nat)
    (h : KeysSorted m) : KeysSorted (mapSet m k v) := by
  induction m with
  | nil => simp [mapSet, KeysSorted]
  | cons kv rest ih =>
    obtain ⟨k1, v1⟩ := kv
    obtain ⟨hhead, htail⟩ := List.pairwise_cons.mp h
    rw [mapSet]
    split_ifs with h1 h2
    · subst h1
      exact List.pairwise_cons.mpr ⟨hhead, htail⟩
    · refine List.pairwise_cons.mpr ⟨?_, h⟩
      intro x hx
      rcases List.mem_cons.mp hx with rfl | hx
      · exact h2
      · exact lt_trans h2 (hhead x hx)
    · refine List.pairwise_cons.mpr ⟨?_, ih htail⟩
      intro x hx
      rcases mem_mapSet hx with rfl | hx2
      · omega
      · exact hhead x hx2

theorem mapGet_of_mem {m : List (Int × Nat)} {k : Int} {v : Nat}
    (hnd : (m.map (fun kv => kv.1)).Nodup) (h : (k, v) ∈ m) :
    mapGet m k = v := by
  induction m with
  | nil => exact absurd h (List.not_mem_nil _)
  | cons kv rest ih =>
    obtain ⟨k1, v1⟩ := kv
    rw [List.map_cons, List.nodup_cons] at hnd
    rcases List.mem_cons.mp h with heq | hx
    · obtain ⟨rfl, rfl⟩ := Prod.mk.injEq .. ▸ heq
      rw [mapGet, if_pos rfl]
    · rw [mapGet]
      split_ifs with h1
      · subst h1
        exact absurd (List.mem_map.mpr ⟨(k, v), hx, rfl⟩) hnd.1
      · exact ih hnd.2 hx

theorem mem_of_mapGet {m : List (Int × Nat)} {k : Int}
    (hk : k ∈ m.map (fun kv => kv.1)) : (k, mapGet m k) ∈ m := by
  induction m with
  | nil => simp at hk
  | cons kv rest ih =>
    obtain ⟨k1, v1⟩ := kv
    rw [List.map_cons, List.mem_cons] at hk
    rw [mapGet]
    split_ifs with h1
    · subst h1
      exact List.mem_cons_self _ _
    · rcases hk with rfl | hk
      · exact absurd rfl h1
      · exact List.mem_cons.mpr (Or.inr (ih hk))

theorem mapSet_id {m : List (Int × Nat)} {k : Int} {v : Nat}
    (hks : KeysSorted m) (h : (k, v) ∈ m) :
    mapSet m k v = m := by
  induction m with
  | nil => exact absurd h (List.not_mem_nil _)
  | cons kv rest ih =>
    obtain ⟨k1, v1⟩ := kv
    obtain ⟨hhead, htail⟩ := List.pairwise_cons.mp hks
    rw [mapSet]
    rcases List.mem_cons.mp h with heq | hx
    · obtain ⟨rfl, rfl⟩ := Prod.mk.injEq .. ▸ heq
      rw [if_pos rfl]
    · have hk1k : k1 < k := hhead (k, v) hx
      split_ifs with h1 h2
      · omega
      · omega
      · rw [ih htail hx]

theorem keys_mapSet_mem {m : List (Int × Nat)} {k : Int} {v : Nat}
    (hks : KeysSorted m) (hk : k ∈ m.map (fun kv => kv.1)) :
    (mapSet m k v).map (fun kv => kv.1) = m.map (fun kv => kv.1) := by
  induction m with
  | nil => simp at hk
  | cons kv rest ih =>
    obtain ⟨k1, v1⟩ := kv
    obtain ⟨hhead, htail⟩ := List.pairwise_cons.mp hks
    rw [List.map_cons, List.mem_cons] at hk
    rw [mapSet]
    split_ifs with h1 h2
    · subst h1
      simp
    · exfalso
      rcases hk with rfl | hk
      · omega
      · obtain ⟨⟨kx, vx⟩, hmem, hkx⟩ := List.mem_map.mp hk
        have := hhead _ hmem
        simp at hkx
        omega
    · rcases hk with rfl | hk
      · omega
      · rw [List.map_cons, List.map_cons, ih htail hk]

theorem mapSet_mem_iff {m : List (Int × Nat)} {k : Int} {v : Nat}
    {x : Int × Nat} (hks : KeysSorted m) (hk : k ∈ m.map (fun kv => kv.1)) :
    (x ∈ mapSet m k v ↔ x = (k, v) ∨ (x.1 ≠ k ∧ x ∈ m)) := by
  induction m with
  | nil => simp at hk
  | cons kv rest ih =>
    obtain ⟨k1, v1⟩ := kv
    obtain ⟨hhead, htail⟩ := List.pairwise_cons.mp hks
    rw [List.map_cons, List.mem_cons] at hk
    rw [mapSet]
    split_ifs with h1 h2
    · subst h1
      constructor
      · intro hx
        rcases List.mem_cons.mp hx with rfl | hx
        · exact Or.inl rfl
        · have := hhead _ hx
          exact Or.inr ⟨by omega, List.mem_cons.mpr (Or.inr hx)⟩
      · intro hx
        rcases hx with rfl | ⟨hne, hx⟩
        · exact List.mem_cons_self _ _
        · rcases List.mem_cons.mp hx with rfl | hx
          · simp at hne
          · exact List.mem_cons.mpr (Or.inr hx)
    · exfalso
      rcases hk with rfl | hk
      · omega
      · obtain ⟨⟨kx, vx⟩, hmem, hkx⟩ := List.mem_map.mp hk
        have := hhead _ hmem
        simp at hkx
        omega
    · have hkr : k ∈ rest.map (fun kv => kv.1) := by
        rcases hk with rfl | hk
        · omega
        · exact hk
      rw [List.mem_cons, ih htail hkr]
      constructor
      · intro hx
        rcases hx with rfl | rfl | ⟨hne, hx⟩
        · exact Or.inr ⟨by omega, List.mem_cons_self _ _⟩
        · exact Or.inl rfl
        · exact Or.inr ⟨hne, List.mem_cons.mpr (Or.inr hx)⟩
      · intro hx
        rcases hx with rfl | ⟨hne, hx⟩
        · exact Or.inr (Or.inl rfl)
        · rcases List.mem_cons.mp hx with rfl | hx
          · exact Or.inl rfl
          · exact Or.inr (Or.inr ⟨hne, hx⟩)

/-- The key-to-rank assignment list: the keys of `sorted` paired with
consecutive order values starting at `n` — the pairs the `forEach`
reassignment writes. -/
def enumOrders (sorted : List (Int × Nat)) (n : Nat) : List (Int × Nat) :=
  match sorted with
  | [] => []
  | kv :: rest => (kv.1, n) :: enumOrders rest (n + 1)

theorem enumOrders_length (s : List (Int × Nat)) (n : Nat) :
    (enumOrders s n).length = s.length := by
  induction s generalizing n with
  | nil => rfl
  | cons kv rest ih => rw [enumOrders, List.length_cons, ih, List.length_cons]

theorem enumOrders_keys (s : List (Int × Nat)) (n : Nat) :
    (enumOrders s n).map (fun kv => kv.1) = s.map (fun kv => kv.1) := by
  induction s generalizing n with
  | nil => rfl
  | cons kv rest ih => rw [enumOrders, List.map_cons, ih, List.map_cons]

theorem enumOrders_snd (s : List (Int × Nat)) (n : Nat) :
    (enumOrders s n).map (fun kv => kv.2) = List.range' n s.length := by
  induction s generalizing n with
  | nil => rfl
  | cons kv rest ih =>
    rw [enumOrders, List.map_cons, ih, List.length_cons, List.range'_succ]

theorem enumOrders_get? (s : List (Int × Nat)) (n : Nat) (i : Nat) :
    (enumOrders s n).get? i = (s.get? i).map (fun kv => (kv.1, n + i)) := by
  induction s generalizing n i with
  | nil => simp [enumOrders]
  | cons kv rest ih =>
    rw [enumOrders]
    cases i with
    | zero => simp
    | succ j =>
      rw [List.get?_cons_succ, List.get?_cons_succ, ih (n + 1) j]
      rcases rest.get? j with _ | kv2
      · simp
      · simp
        omega

theorem enumOrders_sorted (s : List (Int × Nat)) (n : Nat) :
    List.Pairwise (fun x y => x.2 < y.2) (enumOrders s n) := by
  induction s generalizing n with
  | nil => exact List.Pairwise.nil
  | cons kv rest ih =>
    rw [enumOrders]
    refine List.pairwise_cons.mpr ⟨?_, ih (n + 1)⟩
    intro x hx
    have : x.2 ∈ (enumOrders rest (n + 1)).map (fun kv => kv.2) :=
      List.mem_map.mpr ⟨x, hx, rfl⟩
    rw [enumOrders_snd] at this
    have := List.mem_range'_1.mp this
    omega

theorem enumOrders_val_pos (s : List (Int × Nat)) (n : Nat) (hn : 1 ≤ n)
    (x : Int × Nat) (hx : x ∈ enumOrders s n) : x.2 ≠ 0 := by
  have : x.2 ∈ (enumOrders s n).map (fun kv => kv.2) :=
    List.mem_map.mpr ⟨x, hx, rfl⟩
  rw [enumOrders_snd] at this
  have := List.mem_range'_1.mp this
  omega

theorem assignOrders_get_notMem (m s : List (Int × Nat)) (n : Nat) (k : Int)
    (hk : k ∉ s.map (fun kv => kv.1)) :
    mapGet (assignOrders m s n) k = mapGet m k := by
  induction s generalizing m n with
  | nil => rfl
  | cons kv rest ih =>
    rw [List.map_cons, List.mem_cons] at hk
    push_neg at hk
    rw [assignOrders, ih _ _ hk.2, mapGet_mapSet_ne _ _ _ _ hk.1]

theorem assignOrders_get_mem (m s : List (Int × Nat)) (n : Nat) (i : Nat)
    (kv : Int × Nat) (hnd : (s.map (fun kv => kv.1)).Nodup)
    (hi : s.get? i = some kv) :
    mapGet (assignOrders m s n) kv.1 = n + i := by
  induction s generalizing m n i with
  | nil => simp at hi
  | cons kv0 rest ih =>
    rw [List.map_cons, List.nodup_cons] at hnd
    rw [assignOrders]
    cases i with
    | zero =>
      rw [List.get?_cons_zero] at hi
      injection hi with hi
      subst hi
      rw [assignOrders_get_notMem _ _ _ _ hnd.1, mapGet_mapSet_self]
      omega
    | succ j =>
      rw [List.get?_cons_succ] at hi
      rw [ih _ _ j hnd.2 hi]
      omega

theorem assignOrders_keysSorted (m s : List (Int × Nat)) (n : Nat)
    (h : KeysSorted m) : KeysSorted (assignOrders m s n) := by
  induction s generalizing m n with
  | nil => exact h
  | cons kv rest ih =>
    rw [assignOrders]
    exact ih _ _ (mapSet_keysSorted _ _ _ h)

theorem assignOrders_keys (m s : List (Int × Nat)) (n : Nat)
    (hks : KeysSorted m)
    (hsub : ∀ k ∈ s.map (fun kv => kv.1), k ∈ m.map (fun kv => kv.1)) :
    (assignOrders m s n).map (fun kv => kv.1) = m.map (fun kv => kv.1) := by
  induction s generalizing m n with
  | nil => rfl
  | cons kv rest ih =>
    rw [assignOrders]
    have hkv : kv.1 ∈ m.map (fun kv => kv.1) :=
      hsub _ (List.mem_map.mpr ⟨kv, List.mem_cons_self .., rfl⟩)
    rw [ih _ _ (mapSet_keysSorted _ _ _ hks) ?_, keys_mapSet_mem hks hkv]
    intro k hk
    rw [keys_mapSet_mem hks hkv]
    exact hsub k (by rw [List.map_cons]; exact List.mem_cons.mpr (Or.inr hk))

theorem assignOrders_mem_iff (m s : List (Int × Nat)) (n : Nat)
    (x : Int × Nat) (hks : KeysSorted m)
    (hsub : ∀ k ∈ s.map (fun kv => kv.1), k ∈ m.map (fun kv => kv.1))
    (hnd : (s.map (fun kv => kv.1)).Nodup) :
    (x ∈ assignOrders m s n ↔
      x ∈ enumOrders s n ∨
      (x.1 ∉ s.map (fun kv => kv.1) ∧ x ∈ m)) := by
  induction s generalizing m n with
  | nil => simp [assignOrders, enumOrders]
  | cons kv rest ih =>
    rw [List.map_cons, List.nodup_cons] at hnd
    have hkv : kv.1 ∈ m.map (fun kv => kv.1) :=
      hsub _ (by rw [List.map_cons]; exact List.mem_cons_self ..)
    have hsub2 : ∀ k ∈ rest.map (fun kv => kv.1),
        k ∈ (mapSet m kv.1 n).map (fun kv => kv.1) := by
      intro k hk
      rw [keys_mapSet_mem hks hkv]
      exact hsub k (by rw [List.map_cons]; exact List.mem_cons.mpr (Or.inr hk))
    rw [assignOrders,
      ih (mapSet m kv.1 n) (n + 1) (mapSet_keysSorted _ _ _ hks) hsub2 hnd.2,
      enumOrders, List.mem_cons, List.map_cons, List.mem_cons]
    rw [mapSet_mem_iff hks hkv]
    constructor
    · intro hx
      rcases hx with hx | ⟨hne, rfl | ⟨hne2, hx⟩⟩
      · exact Or.inl (Or.inr hx)
      · exact Or.inl (Or.inl rfl)
      · exact Or.inr ⟨by push_neg; exact ⟨hne2, hne⟩, hx⟩
    · intro hx
      rcases hx with (rfl | hx) | ⟨hboth, hx⟩
      · exact Or.inr ⟨hnd.1, Or.inl rfl⟩
      · exact Or.inl hx
      · push_neg at hboth
        exact Or.inr ⟨hboth.2, Or.inr ⟨hboth.1, hx⟩⟩

instance : IsTotal (Int × Nat) (fun a b => a.2 ≤ b.2) :=
  ⟨fun a b => Nat.le_total a.2 b.2⟩

instance : IsTrans (Int × Nat) (fun a b => a.2 ≤ b.2) :=
  ⟨fun _ _ _ => Nat.le_trans⟩

instance : IsAntisymm (Int × Nat) (fun a b => a.2 < b.2) :=
  ⟨fun _ _ h1 h2 => absurd h2 (Nat.lt_asymm h1)⟩

theorem renumber_msel (st : SessionState) :
    (renumber st).multiSelectedOptions =
      assignOrders st.multiSelectedOptions
        ((st.multiSelectedOptions.filter
          (fun kv => kv.2 ≠ 0)).insertionSort (fun a b => a.2 ≤ b.2)) 1 := rfl

theorem renumber_selectionIndex (st : SessionState) :
    (renumber st).selectionIndex =
      ((st.multiSelectedOptions.filter
        (fun kv => kv.2 ≠ 0)).insertionSort (fun a b => a.2 ≤ b.2)).length +
        1 := rfl

/-- The sorted selected entries are a permutation of the selected entries
of the map. -/
theorem sortSel_perm (m : List (Int × Nat)) :
    ((m.filter (fun kv => kv.2 ≠ 0)).insertionSort
      (fun a b => a.2 ≤ b.2)).Perm (m.filter (fun kv => kv.2 ≠ 0)) :=
  List.perm_insertionSort _ _

theorem sortSel_keys_nodup (m : List (Int × Nat)) (hks : KeysSorted m) :
    (((m.filter (fun kv => kv.2 ≠ 0)).insertionSort
      (fun a b => a.2 ≤ b.2)).map (fun kv => kv.1)).Nodup := by
  have hperm := (sortSel_perm m).map (fun kv => kv.1)
  have hkse : KeysSorted (m.filter (fun kv => kv.2 ≠ 0)) :=
    List.Pairwise.filter _ hks
  exact hperm.nodup_iff.mpr hkse.nodup_keys

theorem sortSel_keys_sub (m : List (Int × Nat)) (k : Int)
    (hk : k ∈ ((m.filter (fun kv => kv.2 ≠ 0)).insertionSort
      (fun a b => a.2 ≤ b.2)).map (fun kv => kv.1)) :
    k ∈ m.map (fun kv => kv.1) := by
  obtain ⟨kv, hkv, rfl⟩ := List.mem_map.mp hk
  exact List.mem_map.mpr
    ⟨kv, List.mem_filter.mp ((sortSel_perm m).mem_iff.mp hkv) |>.1, rfl⟩

theorem renumber_get_mem (st : SessionState)
    (hks : KeysSorted st.multiSelectedOptions) (i : Nat) (kv : Int × Nat)
    (hi : ((st.multiSelectedOptions.filter (fun kv => kv.2 ≠ 0)).insertionSort
      (fun a b => a.2 ≤ b.2)).get? i = some kv) :
    mapGet (renumber st).multiSelectedOptions kv.1 = 1 + i := by
  rw [renumber_msel]
  exact assignOrders_get_mem _ _ 1 i kv (sortSel_keys_nodup _ hks) hi

theorem renumber_untouched (st : SessionState) (k : Int)
    (hk : k ∉ ((st.multiSelectedOptions.filter
      (fun kv => kv.2 ≠ 0)).insertionSort (fun a b => a.2 ≤ b.2)).map
      (fun kv => kv.1)) :
    mapGet (renumber st).multiSelectedOptions k =
      mapGet st.multiSelectedOptions k := by
  rw [renumber_msel]
  exact assignOrders_get_notMem _ _ 1 k hk

theorem renumber_keysSorted (st : SessionState)
    (hks : KeysSorted st.multiSelectedOptions) :
    KeysSorted (renumber st).multiSelectedOptions := by
  rw [renumber_msel]
  exact assignOrders_keysSorted _ _ 1 hks

theorem renumber_keys (st : SessionState)
    (hks : KeysSorted st.multiSelectedOptions) :
    (renumber st).multiSelectedOptions.map (fun kv => kv.1) =
      st.multiSelectedOptions.map (fun kv => kv.1) := by
  rw [renumber_msel]
  exact assignOrders_keys _ _ 1 hks (fun k hk => sortSel_keys_sub _ k hk)

/-- After a renumber, the selected entries are exactly the sorted keys
paired with the dense order values `1..N`. -/
theorem renumber_selEntries_perm (st : SessionState)
    (hks : KeysSorted st.multiSelectedOptions) :
    ((renumber st).multiSelectedOptions.filter (fun kv => kv.2 ≠ 0)).Perm
      (enumOrders ((st.multiSelectedOptions.filter
        (fun kv => kv.2 ≠ 0)).insertionSort (fun a b => a.2 ≤ b.2)) 1) := by
  have hnd1 : ((renumber st).multiSelectedOptions.filter
      (fun kv => kv.2 ≠ 0)).Nodup :=
    KeysSorted.nodupPairs (List.Pairwise.filter _ (renumber_keysSorted st hks))
  have hnd2 : (enumOrders ((st.multiSelectedOptions.filter
      (fun kv => kv.2 ≠ 0)).insertionSort (fun a b => a.2 ≤ b.2)) 1).Nodup := by
    apply List.Nodup.of_map (fun kv => kv.2)
    rw [enumOrders_snd]
    exact List.nodup_range' _ _
  rw [List.perm_ext_iff_of_nodup hnd1 hnd2]
  intro x
  rw [List.mem_filter, renumber_msel,
    assignOrders_mem_iff _ _ 1 x hks (fun k hk => sortSel_keys_sub _ k hk)
      (sortSel_keys_nodup _ hks)]
  constructor
  · rintro ⟨hmem | ⟨hnotin, hmem⟩, hnz⟩
    · exact hmem
    · exfalso
      apply hnotin
      have hE : x ∈ st.multiSelectedOptions.filter (fun kv => kv.2 ≠ 0) :=
        List.mem_filter.mpr ⟨hmem, hnz⟩
      exact List.mem_map.mpr ⟨x, (sortSel_perm _).mem_iff.mpr hE, rfl⟩
  · intro hmem
    refine ⟨Or.inl hmem, ?_⟩
    simpa using enumOrders_val_pos _ 1 (le_refl 1) x hmem

theorem pairwise_lt_of_le_nodup (l : List (Int × Nat))
    (hle : List.Pairwise (fun a b => a.2 ≤ b.2) l)
    (hnd : (l.map (fun kv => kv.2)).Nodup) :
    List.Pairwise (fun a b => a.2 < b.2) l := by
  have hne : List.Pairwise (fun a b : Int × Nat => a.2 ≠ b.2) l :=
    (List.pairwise_map).mp hnd
  exact (hle.and hne).imp (fun h => lt_of_le_of_ne h.1 h.2)

/-- Reassigning values that each key already carries is the identity. -/
theorem assignOrders_fixpoint (s : List (Int × Nat)) (m : List (Int × Nat))
    (n : Nat) (hks : KeysSorted m)
    (h : ∀ (i : Nat) (kv : Int × Nat), s.get? i = some kv → (kv.1, n + i) ∈ m) :
    assignOrders m s n = m := by
  induction s generalizing n with
  | nil => rfl
  | cons kv rest ih =>
    rw [assignOrders]
    have h0 : (kv.1, n) ∈ m := by
      have := h 0 kv (List.get?_cons_zero ..)
      simpa using this
    rw [mapSet_id hks h0]
    apply ih
    intro i kv2 hi
    have := h (i + 1) kv2 (by rw [List.get?_cons_succ]; exact hi)
    have harith : n + (i + 1) = (n + 1) + i := by omega
    rwa [harith] at this

/-- Renumbering is idempotent on a key-sorted selection map. -/
theorem renumber_idem (st : SessionState)
    (hks : KeysSorted st.multiSelectedOptions) :
    renumber (renumber st) = renumber st := by
  set st' := renumber st with hst'
  have hks' : KeysSorted st'.multiSelectedOptions := renumber_keysSorted st hks
  set S := (st.multiSelectedOptions.filter
    (fun kv => kv.2 ≠ 0)).insertionSort (fun a b => a.2 ≤ b.2) with hS
  set E' := st'.multiSelectedOptions.filter (fun kv => kv.2 ≠ 0) with hE'
  set S' := E'.insertionSort (fun a b => a.2 ≤ b.2) with hS'
  have hperm : S'.Perm (enumOrders S 1) :=
    (List.perm_insertionSort _ E').trans (renumber_selEntries_perm st hks)
  have hsortedS' : List.Pairwise (fun a b : Int × Nat => a.2 < b.2) S' := by
    apply pairwise_lt_of_le_nodup
    · exact List.sorted_insertionSort _ E'
    · have := (hperm.map (fun kv => kv.2)).nodup_iff
      rw [enumOrders_snd] at this
      exact this.mpr (List.nodup_range' _ _)
  have hkey : S' = enumOrders S 1 :=
    List.eq_of_perm_of_sorted hperm hsortedS' (enumOrders_sorted S 1)
  have hmain : assignOrders st'.multiSelectedOptions S' 1 =
      st'.multiSelectedOptions := by
    rw [hkey]
    apply assignOrders_fixpoint _ _ _ hks'
    intro i kv hi
    rw [enumOrders_get? S 1 i] at hi
    rcases hS0 : S.get? i with _ | kv0
    · rw [hS0] at hi
      simp at hi
    · rw [hS0] at hi
      rw [Option.map_some'] at hi
      injection hi with hi
      subst hi
      dsimp only
      have hget : mapGet st'.multiSelectedOptions kv0.1 = 1 + i :=
        renumber_get_mem st hks i kv0 hS0
      have hkmem : kv0.1 ∈ st'.multiSelectedOptions.map (fun kv => kv.1) := by
        rw [hst', renumber_keys st hks]
        apply sortSel_keys_sub
        rw [← hS]
        exact List.mem_map.mpr ⟨kv0, List.get?_mem hS0, rfl⟩
      have := mem_of_mapGet hkmem
      rwa [hget] at this
  have hlen : S'.length = S.length := by
    rw [hkey, enumOrders_length]
  show renumber st' = st'
  have hren : renumber st' =
      { st' with
        multiSelectedOptions := assignOrders st'.multiSelectedOptions S' 1
        selectionIndex := S'.length + 1 } := rfl
  rw [hren, hmain, hlen]
  have hcount : st'.selectionIndex = S.length + 1 := renumber_selectionIndex st
  rw [← hcount]

theorem applySelection_keysSorted (st : SessionState) (i : Int) (b : Bool)
    (h : KeysSorted st.multiSelectedOptions) :
    KeysSorted (applySelection st i b).multiSelectedOptions := by
  rw [applySelection]
  split_ifs <;> exact mapSet_keysSorted _ _ _ h

theorem foldApply_keysSorted (w : List Int) (b : Bool) (st : SessionState)
    (h : KeysSorted st.multiSelectedOptions) :
    KeysSorted ((w.foldl (fun s i => applySelection s i b)
      st).multiSelectedOptions) := by
  induction w generalizing st with
  | nil => exact h
  | cons i w ih =>
    rw [List.foldl_cons]
    exact ih _ (applySelection_keysSorted st i b h)

theorem toggleCore_keysSorted (st : SessionState) (shift : Bool)
    (h : KeysSorted st.multiSelectedOptions) :
    KeysSorted (toggleCore st shift).multiSelectedOptions := by
  rw [toggleCore]
  split_ifs with h1
  · exact applySelection_keysSorted st st.selected _ h
  · exact foldApply_keysSorted _ _ st h

/-- C4: with `preserveOrder`, every toggle renumbers the selection so that
the `N` selected entries carry exactly the dense order values `1..N` —
entry `i` of the stable sort of the pre-renumber selected entries by
previous order value receives value `i + 1` — the counter becomes `N + 1`,
and applying the renumbering again is the identity. -/
theorem seline_c4_renumber (opts : ProgOpts) (env : TtyEnv) (cli : Bool)
    (st : SessionState) (shift : Bool)
    (hm : opts.multiline = true) (hp : opts.preserveOrder = true)
    (hks : KeysSorted st.multiSelectedOptions) :
    let st2 := toggleCore st shift
    let S := (st2.multiSelectedOptions.filter
      (fun kv => kv.2 ≠ 0)).insertionSort (fun a b => a.2 ≤ b.2)
    let st' := (handleSelect opts env cli st shift).1
    st' = renumber st2 ∧
    (∀ (i : Nat) (kv : Int × Nat), S.get? i = some kv →
      mapGet st'.multiSelectedOptions kv.1 = 1 + i) ∧
    (st'.multiSelectedOptions.filter (fun kv => kv.2 ≠ 0)).length =
      S.length ∧
    ((st'.multiSelectedOptions.filter (fun kv => kv.2 ≠ 0)).map
      (fun kv => kv.2)).Perm (List.range' 1 S.length) ∧
    st'.selectionIndex = S.length + 1 ∧
    renumber st' = st' := by
  intro st2 S st'
  have hks2 : KeysSorted st2.multiSelectedOptions :=
    toggleCore_keysSorted st shift hks
  have h1 : st' = renumber st2 := by
    show (handleSelect opts env cli st shift).1 = _
    rw [handleSelect, if_neg (by simp [hm])]
    show (if opts.multiline = true ∧ opts.preserveOrder = true then
      renumber (toggleCore st shift) else toggleCore st shift) = _
    rw [if_pos ⟨hm, hp⟩]
  have hperm := renumber_selEntries_perm st2 hks2
  refine ⟨h1, ?_, ?_, ?_, ?_, ?_⟩
  · intro i kv hi
    rw [h1]
    exact renumber_get_mem st2 hks2 i kv hi
  · rw [h1]
    rw [hperm.length_eq, enumOrders_length]
  · rw [h1]
    have := hperm.map (fun kv => kv.2)
    rw [enumOrders_snd] at this
    exact this
  · rw [h1]
    exact renumber_selectionIndex st2
  · rw [h1]
    exact renumber_idem st2 hks2

/-- Witness for C4: a plain toggle at index 1 of a three-line list whose
map holds stale order values 5 and 3. -/
theorem seline_c4_witness :
    (let st : SessionState :=
       { choices := ["a", "b", "c"]
         selected := 1
         lastSelected := 0
         selectionIndex := 9
         rowOffset := 0
         multiSelectedOptions := [(0, 5), (2, 3)] }
     let st2 := toggleCore st false
     let S := (st2.multiSelectedOptions.filter
       (fun kv => kv.2 ≠ 0)).insertionSort (fun a b => a.2 ≤ b.2)
     let st' := (handleSelect { optsBase with
       multiline := true, preserveOrder := true } {} true st false).1
     st' = renumber st2 ∧
     (∀ (i : Nat) (kv : Int × Nat), S.get? i = some kv →
       mapGet st'.multiSelectedOptions kv.1 = 1 + i) ∧
     (st'.multiSelectedOptions.filter (fun kv => kv.2 ≠ 0)).length =
       S.length ∧
     ((st'.multiSelectedOptions.filter (fun kv => kv.2 ≠ 0)).map
       (fun kv => kv.2)).Perm (List.range' 1 S.length) ∧
     st'.selectionIndex = S.length + 1 ∧
     renumber st' = st') :=
  seline_c4_renumber
    { optsBase with multiline := true, preserveOrder := true } {} true
    { choices := ["a", "b", "c"]
      selected := 1
      lastSelected := 0
      selectionIndex := 9
      rowOffset := 0
      multiSelectedOptions := [(0, 5), (2, 3)] }
    false rfl rfl (by unfold KeysSorted; decide)
